import Mathlib

/-!
Shallow embedding of the bridge forwarding engine of `src/vswitchd/bridge.c`
(Open vSwitch vswitchd).  Pointers become indices, in-place mutation becomes
explicit state passing, machine integers become `Nat`/`Int` (with `% 2 ^ w`
written out where overflow matters).  Library code that is not part of the
provided source (lib/hash.c, lib/mac-learning.c, lib/tag.c, lib/bitmap.h,
lib/packets.h) is modelled from the specification where needed; every such
definition says so in its doc comment.  Logging (`VLOG_*`), coverage counters
and calls into external collaborators (`ofproto_revalidate`,
`bond_send_learning_packets`, `netdev_close`) have no effect on the bridge
state modelled here and are dropped, as the spec declares them external.
-/

namespace OVS

/-- `OFP_VLAN_NONE` (openflow.h): dl_vlan value meaning "no 802.1Q header". -/
def OFP_VLAN_NONE : Nat := 0xffff

/-- `LLONG_MAX`, used by bridge.c as the "no pending transition" deadline. -/
def LLONG_MAX : Int := 9223372036854775807

/-- An entry of a bonded port's 256-slot hash table (`struct bond_entry`). -/
structure BondEntry where
  iface_idx : Int
  tx_bytes  : Nat
  iface_tag : Nat
  deriving Repr, DecidableEq

/-- `struct iface`: one network device belonging to a port.  The datapath
index `dp_ifidx` is an `int` in the source (−1 until bound). -/
structure Iface where
  name          : String
  port_ifidx    : Nat
  dp_ifidx      : Int
  enabled       : Bool
  delay_expires : Int
  tag           : Nat
  deriving Repr, DecidableEq

/-- `struct port`.  `vlan ≥ 0` means access port, `vlan = −1` trunk; `trunks`
models the 4096-bit bitmap of lib/bitmap.h as the set of set bits (the bitmap
itself is library code outside src/).  `next_tag` models the stream of values
produced by `tag_create_random` (lib/tag.c, outside src/): each mint returns
the current value and advances the stream; the claims never depend on the
distribution of tags, only on the fields that hold them. -/
structure Port where
  name                 : String
  port_idx             : Nat
  vlan                 : Int
  trunks               : List Nat
  ifaces               : List Iface
  bond_hash            : List BondEntry
  active_iface         : Int
  active_iface_tag     : Nat
  no_ifaces_tag        : Nat
  src_mirrors          : Nat
  dst_mirrors          : Nat
  is_mirror_output_port : Bool
  updelay              : Int
  downdelay            : Int
  bond_compat_is_stale : Bool
  next_tag             : Nat
  deriving Repr, DecidableEq

/-- Modelled from the spec: a MAC-learning entry of lib/mac-learning.c
(outside src/): key `(mac, vlan)`, value `(port_idx, revalidation tag)`. -/
structure MacEntry where
  mac      : List Nat
  vlan     : Nat
  port_idx : Nat
  tag      : Nat
  deriving Repr, DecidableEq

/-- `struct mirror`.  `out_port` holds the index of the output port in the
bridge's port sequence (the source stores a pointer into that array);
`out_vlan = −1` means "no output VLAN". -/
structure Mirror where
  name      : String
  idx       : Nat
  src_ports : List String
  dst_ports : List String
  vlans     : List Int
  out_vlan  : Int
  out_port  : Option Nat
  deriving Repr, DecidableEq

/-- `struct bridge` (the fields the modelled operations read or write).
`mirrors` is the 32-slot array `br->mirrors` with `none` for NULL slots;
`ml` is the MAC-learning table (modelled from the spec, see `MacEntry`). -/
structure Bridge where
  name              : String
  ports             : List Port
  mirrors           : List (Option Mirror)
  ml                : List MacEntry
  has_bonded_ports  : Bool
  flush             : Bool
  deriving Repr, DecidableEq

/-- `struct flow` (the L2 fields bridge.c consults).  `dl_vlan` is stored in
host byte order; the source keeps it in network order and applies `ntohs` at
every use, which the embedding makes the identity. -/
structure Flow where
  in_port  : Nat
  dl_src   : List Nat
  dl_dst   : List Nat
  dl_vlan  : Nat
  dl_type  : Nat
  nw_proto : Nat
  deriving Repr, DecidableEq

/-- A forwarding destination (`struct dst`): a datapath port plus the VLAN the
frame must carry there (`OFP_VLAN_NONE` = untagged). -/
structure Dst where
  vlan     : Nat
  dp_ifidx : Nat
  deriving Repr, DecidableEq

/-- Datapath actions emitted by `compose_actions` (`union odp_action`). -/
inductive OdpAction where
  | output (port : Nat)
  | set_vlan_vid (vlan : Nat)
  | strip_vlan
  deriving Repr, DecidableEq

/-- Byte `i` of a MAC address modelled as a byte list (0 when out of range). -/
def macByte (mac : List Nat) (i : Nat) : Nat := mac.getD i 0

/-- Modelled from the spec: `eth_addr_is_multicast` of lib/packets.h
(outside src/): the low bit of the first byte. -/
def eth_addr_is_multicast (mac : List Nat) : Bool := macByte mac 0 % 2 = 1

/-- Modelled from the spec: `eth_addr_is_broadcast` of lib/packets.h
(outside src/): all six bytes 0xff. -/
def eth_addr_is_broadcast (mac : List Nat) : Bool :=
  macByte mac 0 = 0xff && macByte mac 1 = 0xff && macByte mac 2 = 0xff &&
  macByte mac 3 = 0xff && macByte mac 4 = 0xff && macByte mac 5 = 0xff

/-- Modelled from the spec: `eth_addr_is_reserved` of lib/packets.h (outside
src/): the IEEE 802.1D link-local range 01:80:c2:00:00:00/44. -/
def eth_addr_is_reserved (mac : List Nat) : Bool :=
  macByte mac 0 = 0x01 && macByte mac 1 = 0x80 && macByte mac 2 = 0xc2 &&
  macByte mac 3 = 0x00 && macByte mac 4 = 0x00 && macByte mac 5 / 16 = 0

/-- Modelled from the spec: `bond_hash` uses `hash_bytes` of lib/hash.c
(outside src/) masked with `BOND_MASK = 0xff`.  The claims depend only on the
index being a deterministic function of the source MAC, so the byte mixing is
modelled as a simple fold. -/
def bond_hash (mac : List Nat) : Nat :=
  (mac.foldl (fun h b => h * 33 + b) 5381) % 256

/-- `lookup_bond_entry`: the bond-hash entry selected by a source MAC. -/
def lookup_bond_entry (port : Port) (mac : List Nat) : Option BondEntry :=
  port.bond_hash.get? (bond_hash mac)

/-- `port_trunks_vlan`: trunk port (vlan < 0) whose trunk bitmap has `vlan`. -/
def port_trunks_vlan (port : Port) (vlan : Nat) : Bool :=
  port.vlan < 0 && vlan ∈ port.trunks

/-- `port_includes_vlan`. -/
def port_includes_vlan (port : Port) (vlan : Nat) : Bool :=
  (vlan : Int) = port.vlan || port_trunks_vlan port vlan

/-- `flow_get_vlan`: effective VLAN of a flow on its ingress port; −1 means
the frame must be dropped.  `have_packet` only gates rate-limited logging in
the source and does not affect the result. -/
def flow_get_vlan (flow : Flow) (in_port : Port) (_have_packet : Bool) : Int :=
  let vlan : Nat := if flow.dl_vlan = OFP_VLAN_NONE then 0 else flow.dl_vlan
  if in_port.vlan ≥ 0 then
    if vlan ≠ 0 then -1 else in_port.vlan
  else
    if ¬ port_includes_vlan in_port vlan then -1 else (vlan : Int)

/-- `is_bcast_arp_reply` (ETH_TYPE_ARP = 0x0806, ARP_OP_REPLY = 2). -/
def is_bcast_arp_reply (flow : Flow) : Bool :=
  flow.dl_type = 0x0806 && flow.nw_proto = 2 && eth_addr_is_broadcast flow.dl_dst

/-- Update a list at one position (total; identity when out of range).  Used
to express the in-place pointer writes of the source. -/
def listModify {a : Type} : List a → Nat → (a → a) → List a
  | [], _, _ => []
  | x :: xs, 0, f => f x :: xs
  | x :: xs, Nat.succ n, f => x :: listModify xs n f

/-- `uint16_t` view of a C `int` value (conversion by mod 2^16). -/
def u16ofInt (i : Int) : Nat := (i % 65536).toNat

/-- Placeholder interface used for guarded out-of-range reads (the guards of
the source make the corresponding C reads in-bounds). -/
def defaultIface : Iface :=
  { name := "", port_ifidx := 0, dp_ifidx := -1,
    enabled := false, delay_expires := 0, tag := 0 }

/-- First enabled interface of a port (the early return of the scan loop in
`bond_choose_iface`). -/
def first_enabled_iface (ifaces : List Iface) : Option Nat :=
  ifaces.findIdx? (fun i => i.enabled)

/-- The `best_down_slave` tracking of `bond_choose_iface`: index of the
interface with the smallest `delay_expires` strictly below `LLONG_MAX`
(strict comparison, so the first minimum wins). -/
def best_down_slave (ifaces : List Iface) : Option Nat :=
  (ifaces.foldl
    (fun (acc : Option Nat × Int × Nat) i =>
      let (best, next_exp, pos) := acc
      if i.delay_expires < next_exp then (some pos, i.delay_expires, pos + 1)
      else (best, next_exp, pos + 1))
    (none, LLONG_MAX, 0)).1

mutual

/-- `bond_choose_iface`: first enabled interface; otherwise the disabled
interface with the earliest `delay_expires` is enabled early (skipping its
remaining updelay) and returned; −1 when none qualifies.  `fuel` bounds the
recursion through `bond_enable_slave` (depth 2 suffices in reality: the
interface just enabled is found by the inner scan); `moving` threads the
static `moving_active_iface` flag of the source. -/
def bond_choose_iface : Nat → Bool → Port → Int × Port
  | 0, _, port => (-1, port)
  | Nat.succ fuel, moving, port =>
    match first_enabled_iface port.ifaces with
    | some i => ((i : Int), port)
    | none =>
      match best_down_slave port.ifaces with
      | none => (-1, port)
      | some b => ((b : Int), bond_enable_slave fuel moving port b true)

/-- `bond_choose_active_iface`: re-elect the active slave and mint a fresh
`active_iface_tag` (`tag_create_random` modelled by the `next_tag` stream). -/
def bond_choose_active_iface : Nat → Bool → Port → Port
  | 0, _, port => port
  | Nat.succ fuel, moving, port =>
    let r := bond_choose_iface fuel moving port
    { r.2 with
      active_iface := r.1, active_iface_tag := r.2.next_tag,
      next_tag := r.2.next_tag + 1 }

/-- `bond_enable_slave`: flip one slave of a bonded port.  The
`ofproto_revalidate` and `bond_send_learning_packets` calls are external and
dropped; `moving` is the static recursion-check flag of the source. -/
def bond_enable_slave : Nat → Bool → Port → Nat → Bool → Port
  | 0, _, port, _, _ => port
  | Nat.succ fuel, moving, port, idx, enable =>
    let iface := port.ifaces.getD idx defaultIface
    let port0 :=
      { port with
        ifaces := listModify port.ifaces idx
          (fun i => { i with delay_expires := LLONG_MAX }) }
    if enable = iface.enabled then port0
    else
      let port1 :=
        { port0 with
          ifaces := listModify port0.ifaces idx
            (fun i => { i with enabled := enable }) }
      let port2 :=
        if enable = false then
          if (iface.port_ifidx : Int) = port1.active_iface then
            bond_choose_active_iface fuel true port1
          else port1
        else
          let port3 :=
            if port1.active_iface < 0 && moving = false then
              bond_choose_active_iface fuel moving port1
            else port1
          { port3 with
            ifaces := listModify port3.ifaces idx
              (fun i => { i with tag := port3.next_tag }),
            next_tag := port3.next_tag + 1 }
      { port2 with bond_compat_is_stale := true }

end

/-- `choose_output_iface`: pick the egress interface of a (possibly bonded)
port for a source MAC, reassigning the sticky hash entry when it is out of
range or maps to a disabled interface.  Returns the chosen `dp_ifidx` as a
`uint16_t` (`none` when the bond has no usable slave), the accumulated tag
set, and the updated port (the source mutates the port through a const
cast). -/
def choose_output_iface (port : Port) (dl_src : List Nat) (tags : Nat) :
    Option Nat × Nat × Port :=
  if port.ifaces.length = 0 then (none, tags, port)
  else if port.ifaces.length = 1 then
    let iface := port.ifaces.getD 0 defaultIface
    (some (u16ofInt iface.dp_ifidx), tags ||| iface.tag, port)
  else
    let h := bond_hash dl_src
    let e := port.bond_hash.getD h { iface_idx := -1, tx_bytes := 0, iface_tag := 0 }
    if e.iface_idx < 0 || e.iface_idx ≥ (port.ifaces.length : Int)
        || ¬ (port.ifaces.getD e.iface_idx.toNat defaultIface).enabled then
      let r := bond_choose_iface 4 false port
      let idx := r.1
      let port1 := r.2
      if idx < 0 then
        let port2 :=
          { port1 with
            bond_hash := listModify port1.bond_hash h
              (fun e0 => { e0 with iface_idx := idx }) }
        (none, tags ||| port2.no_ifaces_tag, port2)
      else
        let port2 :=
          { port1 with
            bond_hash := listModify port1.bond_hash h
              (fun e0 => { e0 with iface_idx := idx, iface_tag := port1.next_tag }),
            next_tag := port1.next_tag + 1,
            bond_compat_is_stale := true }
        let iface := port2.ifaces.getD idx.toNat defaultIface
        (some (u16ofInt iface.dp_ifidx), tags ||| port1.next_tag ||| iface.tag, port2)
    else
      let iface := port.ifaces.getD e.iface_idx.toNat defaultIface
      (some (u16ofInt iface.dp_ifidx), tags ||| e.iface_tag ||| iface.tag, port)

/-- `set_dst`: compute the destination VLAN for `out_port` and pick its
egress interface.  Returns the destination (when an interface was found), the
tag set, and the updated out port. -/
def set_dst (flow : Flow) (in_port out_port : Port) (tags : Nat) :
    Option Dst × Nat × Port :=
  let vlan : Nat :=
    if out_port.vlan ≥ 0 then OFP_VLAN_NONE
    else if in_port.vlan ≥ 0 then in_port.vlan.toNat
    else flow.dl_vlan
  let r := choose_output_iface out_port flow.dl_src tags
  match r.1 with
  | some dp => (some { vlan := vlan, dp_ifidx := dp }, r.2.1, r.2.2)
  | none => (none, r.2.1, r.2.2)

/-- `dst_is_duplicate`: is some earlier destination equal in both fields. -/
def dst_is_duplicate (dsts : List Dst) (test : Dst) : Bool :=
  dsts.any (fun d => d.vlan = test.vlan && d.dp_ifidx = test.dp_ifidx)

/-- `partition_dsts`: move destinations whose VLAN equals the frame's current
VLAN to the front.  The source does this with an in-place two-pointer
partition whose exact order of the remaining elements is an implementation
accident; the result is the same multiset with every `vlan = vlan0` entry
first, which is what the properties below depend on. -/
def partition_dsts (dsts : List Dst) (vlan : Nat) : List Dst :=
  dsts.filter (fun d => d.vlan = vlan) ++ dsts.filter (fun d => ¬ d.vlan = vlan)

/-- `ffs` (bit scan) bounded to 32-bit masks, used by `mirror_mask_ffs`. -/
def ffs_aux : Nat → Nat → Nat
  | 0, _ => 0
  | Nat.succ fuel, m =>
    if m = 0 then 0 else if m % 2 = 1 then 1 else 1 + ffs_aux fuel (m / 2)

/-- `mirror_mask_ffs`: 1-based index of the lowest set bit (0 for mask 0). -/
def mirror_mask_ffs (mask : Nat) : Nat := ffs_aux 32 mask

/-- `vlan_is_mirrored`: membership of `vlan` in the mirror's VLAN set. -/
def vlan_is_mirrored (m : Mirror) (vlan : Int) : Bool := vlan ∈ m.vlans

/-- Placeholder port used for guarded out-of-range reads. -/
def defaultPort : Port :=
  { name := "", port_idx := 0, vlan := -1, trunks := [], ifaces := [],
    bond_hash := [], active_iface := -1, active_iface_tag := 0,
    no_ifaces_tag := 0, src_mirrors := 0, dst_mirrors := 0,
    is_mirror_output_port := false, updelay := 0, downdelay := 0,
    bond_compat_is_stale := false, next_tag := 0 }

/-- The `out_port` argument of `compose_dsts`: NULL (drop), the `FLOOD_PORT`
sentinel, or a concrete port given by its position in the bridge's port
sequence. -/
inductive OutSpec where
  | null
  | flood
  | port (idx : Nat)
  deriving Repr, DecidableEq

/-- Modelled from the spec: `NF_OUT_FLOOD` comes from netflow.h, which is not
part of the provided source; no claim depends on its numeric value. -/
def NF_OUT_FLOOD : Nat := 0xfffe

/-- One iteration of the flood loop of `compose_dsts`: a port other than the
ingress port that includes the effective VLAN and is not a mirror output port
contributes a destination and its `dst_mirrors` bits.  The state update of
`set_dst` is stored back even when no destination results. -/
def compose_flood_step (flow : Flow) (vlan : Nat) (in_port_idx : Nat)
    (acc : List Dst × Nat × List Port × Nat) (i : Nat) :
    List Dst × Nat × List Port × Nat :=
  let dsts := acc.1
  let tags := acc.2.1
  let ports := acc.2.2.1
  let mirrors := acc.2.2.2
  let port := ports.getD i defaultPort
  if i ≠ in_port_idx ∧ port_includes_vlan port vlan ∧ ¬ port.is_mirror_output_port then
    let r := set_dst flow (ports.getD in_port_idx defaultPort) port tags
    let ports1 := listModify ports i (fun _ => r.2.2)
    match r.1 with
    | some d => (dsts ++ [d], r.2.1, ports1, mirrors ||| r.2.2.dst_mirrors)
    | none => (dsts, r.2.1, ports1, mirrors)
  else acc

/-- The flood loop of `compose_dsts` over all ports of the bridge. -/
def compose_flood (flow : Flow) (vlan : Nat) (in_port_idx : Nat)
    (ports : List Port) (tags : Nat) : List Dst × Nat × List Port × Nat :=
  (List.range ports.length).foldl (compose_flood_step flow vlan in_port_idx)
    ([], tags, ports, 0)

/-- One iteration of the RSPAN inner loop of `compose_dsts`: every port that
includes the mirror's output VLAN gets a destination with the VLAN rewritten
(on trunk ports), except duplicates and the ingress port on the frame's own
VLAN. -/
def compose_rspan_step (flow : Flow) (out_vlan : Int) (in_port_idx : Nat)
    (acc : List Dst × Nat × List Port) (i : Nat) : List Dst × Nat × List Port :=
  let dsts := acc.1
  let tags := acc.2.1
  let ports := acc.2.2
  let port := ports.getD i defaultPort
  if port_includes_vlan port (u16ofInt out_vlan) then
    let r := set_dst flow (ports.getD in_port_idx defaultPort) port tags
    let ports1 := listModify ports i (fun _ => r.2.2)
    match r.1 with
    | some d0 =>
      let d := if port.vlan < 0 then { d0 with vlan := u16ofInt out_vlan } else d0
      if dst_is_duplicate dsts d then (dsts, r.2.1, ports1)
      else
        let flow_vlan := if flow.dl_vlan = 0 then OFP_VLAN_NONE else flow.dl_vlan
        if i = in_port_idx ∧ d.vlan = flow_vlan then (dsts, r.2.1, ports1)
        else (dsts ++ [d], r.2.1, ports1)
    | none => (dsts, r.2.1, ports1)
  else acc

/-- The `while (mirrors)` loop of `compose_dsts`.  `fuel` bounds the loop by
the 32-bit width of the mirror mask; a mask bit pointing at an empty mirror
slot is skipped (the source never sets such bits, and would crash on one). -/
def compose_mirrors (mirrorsArr : List (Option Mirror)) (flow : Flow)
    (vlan : Nat) (in_port_idx : Nat) :
    Nat → Nat → List Dst × Nat × List Port → List Dst × Nat × List Port
  | 0, _, acc => acc
  | Nat.succ fuel, mask, acc =>
    if mask = 0 then acc
    else
      let dsts := acc.1
      let tags := acc.2.1
      let ports := acc.2.2
      let midx := mirror_mask_ffs mask - 1
      let mask1 := Nat.land mask (mask - 1)
      match mirrorsArr.getD midx none with
      | none => compose_mirrors mirrorsArr flow vlan in_port_idx fuel mask1 acc
      | some m =>
        if m.vlans.length = 0 || vlan_is_mirrored m (vlan : Int) then
          match m.out_port with
          | some opidx =>
            let r := set_dst flow (ports.getD in_port_idx defaultPort)
              (ports.getD opidx defaultPort) tags
            let ports1 := listModify ports opidx (fun _ => r.2.2)
            let acc1 :=
              match r.1 with
              | some d =>
                if dst_is_duplicate dsts d then (dsts, r.2.1, ports1)
                else (dsts ++ [d], r.2.1, ports1)
              | none => (dsts, r.2.1, ports1)
            compose_mirrors mirrorsArr flow vlan in_port_idx fuel mask1 acc1
          | none =>
            let acc1 := (List.range ports.length).foldl
              (compose_rspan_step flow m.out_vlan in_port_idx) acc
            compose_mirrors mirrorsArr flow vlan in_port_idx fuel mask1 acc1
        else compose_mirrors mirrorsArr flow vlan in_port_idx fuel mask1 acc

/-- `compose_dsts`: the destination list for a flow, its tag set, the updated
port states, and `nf_output_iface`.  The mirror workset starts as the ingress
port's `src_mirrors` and accumulates the `dst_mirrors` of every primary
destination. -/
def compose_dsts (br : Bridge) (flow : Flow) (vlan : Nat) (in_port_idx : Nat)
    (out_spec : OutSpec) (tags : Nat) (nf0 : Nat) :
    List Dst × Nat × List Port × Nat :=
  let ports := br.ports
  let in_port := ports.getD in_port_idx defaultPort
  let mirrors0 := in_port.src_mirrors
  let primary :
      List Dst × Nat × List Port × Nat × Nat :=
    match out_spec with
    | OutSpec.flood =>
      let r := compose_flood flow vlan in_port_idx ports tags
      (r.1, r.2.1, r.2.2.1, mirrors0 ||| r.2.2.2, NF_OUT_FLOOD)
    | OutSpec.port oidx =>
      let out_port := ports.getD oidx defaultPort
      let r := set_dst flow in_port out_port tags
      let ports1 := listModify ports oidx (fun _ => r.2.2)
      match r.1 with
      | some d => ([d], r.2.1, ports1, mirrors0 ||| out_port.dst_mirrors, d.dp_ifidx)
      | none => ([], r.2.1, ports1, mirrors0, nf0)
    | OutSpec.null => ([], tags, ports, mirrors0, nf0)
  let r2 := compose_mirrors br.mirrors flow vlan in_port_idx 32 primary.2.2.2.1
    (primary.1, primary.2.1, primary.2.2.1)
  (partition_dsts r2.1 flow.dl_vlan, r2.2.1, r2.2.2, primary.2.2.2.2)

/-- The action-emission loop of `compose_actions`: a VLAN change on the
action stream (`STRIP_VLAN` / `SET_VLAN_VID`) before each `OUTPUT` whose
destination VLAN differs from the current one. -/
def emit_dst_actions : List Dst → Nat → List OdpAction
  | [], _ => []
  | d :: rest, cur_vlan =>
    (if d.vlan ≠ cur_vlan then
      [if d.vlan = OFP_VLAN_NONE then OdpAction.strip_vlan
       else OdpAction.set_vlan_vid d.vlan]
     else []) ++ (OdpAction.output d.dp_ifidx :: emit_dst_actions rest d.vlan)

/-- `compose_actions`: `compose_dsts` followed by action emission. -/
def compose_actions (br : Bridge) (flow : Flow) (vlan : Nat)
    (in_port_idx : Nat) (out_spec : OutSpec) (tags : Nat) (nf0 : Nat) :
    List OdpAction × Nat × List Port × Nat :=
  let r := compose_dsts br flow vlan in_port_idx out_spec tags nf0
  (emit_dst_actions r.1 flow.dl_vlan, r.2.1, r.2.2.1, r.2.2.2)

/-- Modelled from the spec: `mac_learning_lookup` of lib/mac-learning.c
(outside src/): the port index learned for `(mac, vlan)`, −1 when absent.
Flood-VLAN filtering and aging are not exercised by the claims and are left
out of the model. -/
def mac_learning_lookup (ml : List MacEntry) (mac : List Nat) (vlan : Nat) : Int :=
  match ml.find? (fun e => e.mac = mac && e.vlan = vlan) with
  | some e => (e.port_idx : Int)
  | none => -1

/-- Modelled from the spec: `mac_learning_lookup_with_tag`: as
`mac_learning_lookup`, additionally accumulating the entry's revalidation
tag. -/
def mac_learning_lookup_tag (ml : List MacEntry) (mac : List Nat) (vlan : Nat)
    (tags : Nat) : Int × Nat :=
  match ml.find? (fun e => e.mac = mac && e.vlan = vlan) with
  | some e => ((e.port_idx : Int), tags ||| e.tag)
  | none => (-1, tags)

/-- Modelled from the spec: `mac_learning_learn`: insert or refresh
`(mac, vlan) → port_idx`; when the key was mapped to a different port the old
entry's tag is returned (a MAC move) so cached flows can be revalidated;
multicast source MACs are never learned. -/
def mac_learning_learn (ml : List MacEntry) (mac : List Nat) (vlan : Nat)
    (port_idx : Nat) : List MacEntry × Nat :=
  if eth_addr_is_multicast mac then (ml, 0)
  else
    match ml.find? (fun e => e.mac = mac && e.vlan = vlan) with
    | some e =>
      (ml.map (fun e0 =>
        if e0.mac = mac && e0.vlan = vlan then { e0 with port_idx := port_idx } else e0),
       if e.port_idx ≠ port_idx then e.tag else 0)
    | none => (ml ++ [{ mac := mac, vlan := vlan, port_idx := port_idx, tag := 0 }], 0)

/-- `update_learning_table`: learn the source MAC; the revalidation of the
returned tag goes to the external OpenFlow switch and is dropped here. -/
def update_learning_table (ml : List MacEntry) (flow : Flow) (vlan : Nat)
    (in_port : Port) : List MacEntry :=
  (mac_learning_learn ml flow.dl_src vlan in_port.port_idx).1

/-- `iface_from_dp_ifidx`: `br->ifaces` is the bridge's dp_ifidx→interface
map, kept in sync with the ports' interface lists; it is modelled as the
search for the (first) interface with the given datapath index.  Returns the
positions of the port and of the interface within it. -/
def iface_from_dp_ifidx : List Port → Nat → Option (Nat × Nat)
  | [], _ => none
  | p :: ps, dp =>
    match p.ifaces.findIdx? (fun i => i.dp_ifidx = (dp : Int)) with
    | some ii => some (0, ii)
    | none => (iface_from_dp_ifidx ps dp).map (fun r => (r.1 + 1, r.2))

/-- `port_from_dp_ifidx`: the port owning the interface bound to `dp`. -/
def port_from_dp_ifidx (ports : List Port) (dp : Nat) : Option Nat :=
  (iface_from_dp_ifidx ports dp).map (fun r => r.1)

/-- `process_flow`: the forwarding pipeline.  Returns the `bool` result of
the hook (false = refuse to install the flow), the composed actions, the
updated bridge (learning-table and bond-state changes), the tag set and
`nf_output_iface`.  The packet argument matters only through its presence
(learning and logging), modelled by `have_packet`. -/
def process_flow (br : Bridge) (flow : Flow) (have_packet : Bool)
    (tags : Nat) (nf0 : Nat) : Bool × List OdpAction × Bridge × Nat × Nat :=
  match iface_from_dp_ifidx br.ports flow.in_port with
  | none => (true, [], br, tags, nf0)
  | some (pi, ii) =>
    let in_port := br.ports.getD pi defaultPort
    let in_iface := in_port.ifaces.getD ii defaultIface
    let finish := fun (out_spec : OutSpec) (vlanI : Int) (ml : List MacEntry)
        (tags : Nat) =>
      let br1 := { br with ml := ml }
      let r := compose_actions br1 flow (u16ofInt vlanI) pi out_spec tags nf0
      (true, r.1, { br1 with ports := r.2.2.1 }, r.2.1, r.2.2.2)
    let vlan := flow_get_vlan flow in_port have_packet
    if vlan < 0 then finish OutSpec.null vlan br.ml tags
    else if eth_addr_is_reserved flow.dl_dst then finish OutSpec.null vlan br.ml tags
    else if in_port.is_mirror_output_port then finish OutSpec.null vlan br.ml tags
    else
      let mc := eth_addr_is_multicast flow.dl_dst
      let tags1 := if in_port.ifaces.length > 1 && mc then
        tags ||| in_port.active_iface_tag else tags
      if in_port.ifaces.length > 1 && mc
          && in_port.active_iface ≠ (in_iface.port_ifidx : Int) then
        finish OutSpec.null vlan br.ml tags1
      else if in_port.ifaces.length > 1 &&
          (let src_idx := mac_learning_lookup br.ml flow.dl_src vlan.toNat
           src_idx ≠ -1 && src_idx ≠ (in_port.port_idx : Int)
             && ¬ is_bcast_arp_reply flow) then
        finish OutSpec.null vlan br.ml tags1
      else
        let ml1 := if have_packet then
          update_learning_table br.ml flow vlan.toNat in_port else br.ml
        let lr := mac_learning_lookup_tag ml1 flow.dl_dst vlan.toNat tags1
        if 0 ≤ lr.1 ∧ lr.1 < (br.ports.length : Int) then
          if lr.1 = (pi : Int) then finish OutSpec.null vlan ml1 lr.2
          else finish (OutSpec.port lr.1.toNat) vlan ml1 lr.2
        else if ¬ have_packet ∧ ¬ mc then
          (false, [], { br with ml := ml1 }, lr.2, nf0)
        else finish OutSpec.flood vlan ml1 lr.2

/-- `e->tx_bytes += n_bytes` for one `ODPAT_OUTPUT` action of
`bridge_account_flow_ofhook_cb` (u64 addition, hence mod 2^64). -/
def bridge_account_flow_step (flow : Flow) (n_bytes : Nat)
    (ports : List Port) (a : OdpAction) : List Port :=
  match a with
  | OdpAction.output p =>
    match port_from_dp_ifidx ports p with
    | some opi =>
      let out_port := ports.getD opi defaultPort
      if out_port.ifaces.length ≥ 2 then
        listModify ports opi (fun q =>
          { q with
            bond_hash := listModify q.bond_hash (bond_hash flow.dl_src)
              (fun e => { e with tx_bytes := (e.tx_bytes + n_bytes) % 2 ^ 64 }) })
      else ports
    | none => ports
  | _ => ports

/-- `bridge_account_flow_ofhook_cb`: re-learn the source MAC from the live
flow, then credit `n_bytes` to the bond-hash entry of the source MAC for
every `OUTPUT` action whose egress port is bonded. -/
def bridge_account_flow_ofhook_cb (br : Bridge) (flow : Flow)
    (actions : List OdpAction) (n_bytes : Nat) : Bridge :=
  let ml1 :=
    match port_from_dp_ifidx br.ports flow.in_port with
    | some pi =>
      let in_port := br.ports.getD pi defaultPort
      let vlan := flow_get_vlan flow in_port false
      if vlan ≥ 0 then update_learning_table br.ml flow vlan.toNat in_port
      else br.ml
    | none => br.ml
  if ¬ br.has_bonded_ports then { br with ml := ml1 }
  else
    { br with
      ml := ml1,
      ports := actions.foldl (bridge_account_flow_step flow n_bytes) br.ports }

/-- `struct slave_balance` of the rebalancing pass: position of the slave in
the port's interface sequence, its enabled flag (not mutated during the
pass), the summed load, and the hash indices assigned to it in ascending
order of `tx_bytes`. -/
structure SlaveBal where
  ifidx    : Nat
  enabled  : Bool
  tx_bytes : Nat
  hashes   : List Nat
  deriving Repr, DecidableEq

/-- Placeholder bond entry for guarded out-of-range reads. -/
def defBE : BondEntry := { iface_idx := -1, tx_bytes := 0, iface_tag := 0 }

/-- Placeholder slave balance for guarded out-of-range reads. -/
def defSB : SlaveBal := { ifidx := 0, enabled := false, tx_bytes := 0, hashes := [] }

/-- Stable insertion: `x` goes after every `y` with `le y x`. -/
def insertBy {a : Type} (le : a → a → Bool) (x : a) : List a → List a
  | [] => [x]
  | y :: ys => if le y x then y :: insertBy le x ys else x :: y :: ys

/-- Stable sort.  The source uses `qsort`, whose order on tie keys is
unspecified; both comparators below return 0 on ties, so any stable order is
a legitimate refinement. -/
def sortBy {a : Type} (le : a → a → Bool) : List a → List a
  | [] => []
  | x :: xs => insertBy le x (sortBy le xs)

/-- `compare_bond_entries` as a ≤ on hash indices: ascending `iface_idx`,
then ascending `tx_bytes`. -/
def bond_entry_le (table : List BondEntry) (x y : Nat) : Bool :=
  let ex := table.getD x defBE
  let ey := table.getD y defBE
  if ex.iface_idx = ey.iface_idx then ex.tx_bytes ≤ ey.tx_bytes
  else decide (ex.iface_idx < ey.iface_idx)

/-- `compare_slave_balance` as a ≤: enabled slaves first, then descending
`tx_bytes`. -/
def slave_le (x y : SlaveBal) : Bool :=
  if x.enabled = y.enabled then y.tx_bytes ≤ x.tx_bytes else x.enabled

/-- The `while (!bals[n_bals - 1].iface->enabled)` shrink loop: keep the
prefix up to the last enabled slave (empty when all are disabled, in which
case `bond_rebalance_port` returns early). -/
def drop_trailing_disabled (bals : List SlaveBal) : List SlaveBal :=
  (bals.reverse.dropWhile (fun b => ¬ b.enabled)).reverse

/-- The per-hash acceptance test of the migration-selection loop of
`bond_rebalance_port` (bridge.c:2524-2558): skip empty or total moves, take
any move onto an idle slave, otherwise require the load ratio to drop by
more than 0.1.  The source computes the ratios in `double`; they are modelled
as exact rationals. -/
def hash_migration_ok (from_tx to_tx delta : Nat) : Bool :=
  if delta = 0 || from_tx - delta = 0 then false
  else if to_tx = 0 then true
  else
    let old_ratio : ℚ := (from_tx : ℚ) / (to_tx : ℚ)
    let new0 : ℚ := ((from_tx - delta : Nat) : ℚ) / ((to_tx + delta : Nat) : ℚ)
    if new0 = 0 then false
    else
      let new_ratio := if new0 < 1 then 1 / new0 else new0
      decide (old_ratio - new_ratio > 1 / 10)

/-- The migration-selection loop: the first hash of the loaded slave (whose
`hashes` are in ascending `tx_bytes` order) that passes
`hash_migration_ok`. -/
def choose_hash (from_tx to_tx : Nat) (table : List BondEntry)
    (hashes : List Nat) : Option Nat :=
  hashes.findIdx? (fun h => hash_migration_ok from_tx to_tx ((table.getD h defBE).tx_bytes))

/-- Swap two positions of a list (identity when out of range). -/
def list_swap {a : Type} (d : a) (l : List a) (i j : Nat) : List a :=
  let xi := l.getD i d
  let xj := l.getD j d
  listModify (listModify l i (fun _ => xj)) j (fun _ => xi)

/-- `bond_shift_load`: move hash number `i` of the slave at position `f` to
the slave at position `t`: drop it from the donor's hash list, move its load,
point the table entry at the receiving slave and mint a fresh tag
(`ofproto_revalidate` of the old tag is external and dropped). -/
def bond_shift_load (bals : List SlaveBal) (table : List BondEntry)
    (next_tag : Nat) (f t i : Nat) :
    List SlaveBal × List BondEntry × Nat :=
  let fromB := bals.getD f defSB
  let toB := bals.getD t defSB
  let h := fromB.hashes.getD i 0
  let delta := (table.getD h defBE).tx_bytes
  let bals1 := listModify bals f (fun b =>
    { b with hashes := b.hashes.eraseIdx i, tx_bytes := b.tx_bytes - delta })
  let bals2 := listModify bals1 t (fun b => { b with tx_bytes := b.tx_bytes + delta })
  let table1 := listModify table h (fun e =>
    { e with iface_idx := (toB.ifidx : Int), iface_tag := next_tag })
  (bals2, table1, next_tag + 1)

/-- First loop of `resort_bals`: bubble position `p` toward the front while
its load exceeds its predecessor's; returns the final position. -/
def resort_up : List SlaveBal → Nat → List SlaveBal × Nat
  | bals, 0 => (bals, 0)
  | bals, Nat.succ p =>
    if (bals.getD (p + 1) defSB).tx_bytes > (bals.getD p defSB).tx_bytes then
      resort_up (list_swap defSB bals p (p + 1)) p
    else (bals, p + 1)

/-- Second loop of `resort_bals`: bubble position `p` toward the back while
its load is below its successor's (`fuel` = list length bounds the walk). -/
def resort_down : Nat → List SlaveBal → Nat → List SlaveBal
  | 0, bals, _ => bals
  | Nat.succ fuel, bals, p =>
    if p + 1 < bals.length &&
        (bals.getD p defSB).tx_bytes < (bals.getD (p + 1) defSB).tx_bytes then
      resort_down fuel (list_swap defSB bals p (p + 1)) (p + 1)
    else bals

/-- `resort_bals`: restore sortedness around the one disturbed position. -/
def resort_bals (bals : List SlaveBal) (p : Nat) : List SlaveBal :=
  if bals.length > 1 then
    let r := resort_up bals p
    resort_down bals.length r.1 r.2
  else bals

/-- The `for (from = bals; from < to; )` migration loop of
`bond_rebalance_port`.  `f` is the position of `from`; `to` is fixed at the
last position.  Returns the final slave balances, hash table, tag stream and
whether any migration happened (`bond_compat_is_stale`). -/
def rebalance_loop :
    Nat → List SlaveBal → Nat → List BondEntry → Nat → Bool →
    List SlaveBal × List BondEntry × Nat × Bool
  | 0, bals, _, table, next_tag, stale => (bals, table, next_tag, stale)
  | Nat.succ fuel, bals, f, table, next_tag, stale =>
    let n := bals.length
    if f + 1 ≥ n then (bals, table, next_tag, stale)
    else
      let fromB := bals.getD f defSB
      let toB := bals.getD (n - 1) defSB
      let overload := fromB.tx_bytes - toB.tx_bytes
      if overload < toB.tx_bytes >>> 5 || overload < 100000 then
        (bals, table, next_tag, stale)
      else if fromB.hashes.length = 1 then
        rebalance_loop fuel bals (f + 1) table next_tag stale
      else
        match choose_hash fromB.tx_bytes toB.tx_bytes table fromB.hashes with
        | none => rebalance_loop fuel bals (f + 1) table next_tag stale
        | some i =>
          let h := fromB.hashes.getD i 0
          let delta := (table.getD h defBE).tx_bytes
          let order_swapped := decide (fromB.tx_bytes - delta < toB.tx_bytes + delta)
          let r := bond_shift_load bals table next_tag f (n - 1) i
          let bals1 := if order_swapped then list_swap defSB r.1 f (n - 1) else r.1
          let bals2 := resort_bals bals1 f
          let bals3 := resort_bals bals2 (n - 1)
          rebalance_loop fuel bals3 f r.2.1 r.2.2 true

/-- `bond_rebalance_port`: build the per-slave balances (hashes grouped per
slave in ascending load order), sort slaves by descending load with disabled
slaves last, drop the disabled tail (returning the port unchanged when no
slave is enabled — the early `return` of the source skips the decay), run the
migration loop, and halve every hash entry's `tx_bytes` (the EWMA decay). -/
def bond_rebalance_port (port : Port) : Port :=
  let table := port.bond_hash
  let sortedHashes := sortBy (bond_entry_le table) (List.range table.length)
  let bals0 := (List.range port.ifaces.length).map (fun (j : Nat) =>
    let hs := sortedHashes.filter (fun h => (table.getD h defBE).iface_idx = (j : Int))
    { ifidx := j, enabled := (port.ifaces.getD j defaultIface).enabled,
      tx_bytes := (hs.map (fun h => (table.getD h defBE).tx_bytes)).sum,
      hashes := hs : SlaveBal })
  let bals := sortBy slave_le bals0
  let kept := drop_trailing_disabled bals
  if kept.length = 0 then port
  else
    let r := rebalance_loop (table.length + kept.length + 1) kept 0 table
      port.next_tag false
    { port with
      bond_hash := r.2.1.map (fun e => { e with tx_bytes := e.tx_bytes / 2 }),
      next_tag := r.2.2.1,
      bond_compat_is_stale := port.bond_compat_is_stale || r.2.2.2 }

/-- `iface_destroy`: remove one interface from its port, filling the freed
slot from the tail and rewriting the displaced interface's `port_ifidx` (the
slot index is taken from the removed interface's `port_ifidx` field, exactly
as the source does); re-elect the active slave if the removed one was
active.  The `br->ifaces` dp map is derived in this model and needs no
separate clearing. -/
def iface_destroy (br : Bridge) (pi : Nat) (ifidx : Nat) : Bridge :=
  let port := br.ports.getD pi defaultPort
  let iface := port.ifaces.getD ifidx defaultIface
  let del_active := port.active_iface = (iface.port_ifidx : Int)
  let slot := iface.port_ifidx
  let n1 := port.ifaces.length - 1
  let lastIface := port.ifaces.getD n1 defaultIface
  let ifaces1 :=
    (listModify port.ifaces slot (fun _ => { lastIface with port_ifidx := slot })).take n1
  let port1 := { port with ifaces := ifaces1 }
  let port2 := if del_active then bond_choose_active_iface 4 false port1 else port1
  { br with ports := listModify br.ports pi (fun _ => port2), flush := true }

/-- The bond-delay assignments of `port_reconfigure` (bridge.c:3010-3017),
reproduced exactly: after clamping `updelay` from `cfg->bond_updelay`, the
source assigns `port->updelay = cfg->bond_downdelay` a second time, and
`port->downdelay` is never assigned from the configuration at all (it is only
clamped at 0 if negative). -/
def port_reconfigure_delays (port : Port)
    (cfg_bond_updelay cfg_bond_downdelay : Int) : Port :=
  let port1 := { port with updelay := cfg_bond_updelay }
  let port2 := if port1.updelay < 0 then { port1 with updelay := 0 } else port1
  let port3 := { port2 with updelay := cfg_bond_downdelay }
  if port3.downdelay < 0 then { port3 with downdelay := 0 } else port3

/-- `bond_link_status_update`: the carrier-debounce state machine of one
slave at wall-clock time `now`. -/
def bond_link_status_update (now : Int) (port : Port) (ifidx : Nat)
    (carrier : Bool) : Port :=
  let iface := port.ifaces.getD ifidx defaultIface
  if ((carrier = iface.enabled) = (iface.delay_expires = LLONG_MAX)) then port
  else if carrier = iface.enabled then
    { port with
      ifaces := listModify port.ifaces ifidx
        (fun i => { i with delay_expires := LLONG_MAX }) }
  else if carrier && port.active_iface < 0 then
    bond_enable_slave 4 false port ifidx true
  else
    let delay := if carrier then port.updelay else port.downdelay
    { port with
      ifaces := listModify port.ifaces ifidx
        (fun i => { i with delay_expires := now + delay }) }

/-- The per-port body of `bond_run`: fire every expired delay (flipping the
slave's enabled flag) and consume the `bond_compat_is_stale` flag
(`port_update_bond_compat` itself only rewrites the procfs compatibility
view, which is external). -/
def bond_run_port (now : Int) (port : Port) : Port :=
  let port1 :=
    if port.ifaces.length ≥ 2 then
      (List.range port.ifaces.length).foldl
        (fun p j =>
          let iface := p.ifaces.getD j defaultIface
          if now ≥ iface.delay_expires then
            bond_enable_slave 4 false p j (¬ iface.enabled)
          else p)
        port
    else port
  if port1.bond_compat_is_stale then { port1 with bond_compat_is_stale := false }
  else port1

/-- Clear bit `k` of a mask. -/
def clear_bit (n k : Nat) : Nat := n - Nat.land n (2 ^ k)

/-- `struct ovsrec_mirror`: the configuration record consumed by
`mirror_reconfigure_one` (the fields it reads). -/
structure MirrorCfg where
  output_port     : Option String
  output_vlan     : Option Int
  select_src_port : List String
  select_dst_port : List String
  select_vlan     : List Int
  deriving Repr, DecidableEq

/-- `port_lookup`: position of the port with the given name. -/
def port_lookup (ports : List Port) (name : String) : Option Nat :=
  ports.findIdx? (fun p => p.name = name)

/-- `mirror_collect_ports`: keep the selection names that exist on the
bridge (the source also deduplicates into an shash; only membership matters
downstream). -/
def mirror_collect_ports (ports : List Port) (names : List String) : List String :=
  names.filter (fun n => (port_lookup ports n).isSome)

/-- `mirror_collect_vlans`: keep the VLANs in range 0..4095. -/
def mirror_collect_vlans (cfg_vlans : List Int) : List Int :=
  cfg_vlans.filter (fun v => 0 ≤ v && v ≤ 4095)

/-- `mirror_destroy`: clear the mirror's bit from every port's mirror masks
(the slot itself becomes NULL in the bridge's mirror array). -/
def mirror_destroy (ports : List Port) (idx : Nat) : List Port :=
  ports.map (fun p =>
    { p with
      src_mirrors := clear_bit p.src_mirrors idx,
      dst_mirrors := clear_bit p.dst_mirrors idx })

/-- `port_trunks_any_mirrored_vlan`. -/
def port_trunks_any_mirrored_vlan (vlans : List Int) (p : Port) : Bool :=
  vlans.any (fun v => port_trunks_vlan p (u16ofInt v))

/-- The tail of `mirror_reconfigure_one` after the output specification has
been resolved: validate the selection sets, update the mirror, and rewrite
every port's mirror masks.  Reproduces the test at bridge.c:3715 exactly:
`any_ports_specified` reads `n_select_dst_port` twice, so a configuration
whose only selections are source ports is treated as specifying no ports at
all.  Also reproduces `!port->vlan` at bridge.c:3762, which tests for VLAN 0
rather than for a trunk port. -/
def mirror_reconfigure_body (ports : List Port) (m : Mirror) (cfg : MirrorCfg)
    (out_port : Option Nat) (out_vlan : Int) : Option Mirror × List Port :=
  let src_ports := mirror_collect_ports ports cfg.select_src_port
  let dst_ports := mirror_collect_ports ports cfg.select_dst_port
  let any_ports_specified :=
    cfg.select_dst_port.length ≠ 0 || cfg.select_dst_port.length ≠ 0
  if any_ports_specified && src_ports.isEmpty && dst_ports.isEmpty then
    (none, mirror_destroy ports m.idx)
  else
    let vlans := mirror_collect_vlans cfg.select_vlan
    let any_vlans_specified := cfg.select_vlan.length ≠ 0
    if any_vlans_specified && vlans.isEmpty then
      (none, mirror_destroy ports m.idx)
    else
      let m1 :=
        { m with
          src_ports := src_ports, dst_ports := dst_ports, vlans := vlans,
          out_port := out_port, out_vlan := out_vlan }
      let mirror_all_ports := ¬ any_ports_specified && ¬ any_vlans_specified
      let mirror_bit := 2 ^ m.idx
      let ports1 := ports.map (fun port =>
        let src := mirror_all_ports || src_ports.contains port.name ||
          (vlans.length ≠ 0 &&
            (if port.vlan = 0 then port_trunks_any_mirrored_vlan vlans port
             else vlan_is_mirrored m1 port.vlan))
        let dst := mirror_all_ports || dst_ports.contains port.name
        { port with
          src_mirrors := if src then port.src_mirrors ||| mirror_bit
            else clear_bit port.src_mirrors m.idx,
          dst_mirrors := if dst then port.dst_mirrors ||| mirror_bit
            else clear_bit port.dst_mirrors m.idx })
      (some m1, ports1)

/-- `mirror_reconfigure_one`: resolve the output specification (an output
port that does not exist on the bridge destroys the mirror; an output port
together with an output VLAN keeps the port and leaves `out_vlan` at −1 with
only a log message; neither output destroys the mirror), then run the
selection validation and mask rewrite.  `none` in the first component means
the mirror was destroyed; reconciliation continues either way. -/
def mirror_reconfigure_one (ports : List Port) (m : Mirror) (cfg : MirrorCfg) :
    Option Mirror × List Port :=
  match cfg.output_port with
  | some oname =>
    match port_lookup ports oname with
    | none => (none, mirror_destroy ports m.idx)
    | some opidx => mirror_reconfigure_body ports m cfg (some opidx) (-1)
  | none =>
    match cfg.output_vlan with
    | some v => mirror_reconfigure_body ports m cfg none v
    | none => (none, mirror_destroy ports m.idx)

/-! ### Concrete fixtures used by counterexamples and witnesses -/

/-- A bound, carrier-up interface. -/
def mkIface (pifidx : Nat) (dp : Int) (en : Bool) : Iface :=
  { name := "i", port_ifidx := pifidx, dp_ifidx := dp, enabled := en,
    delay_expires := LLONG_MAX, tag := 0 }

/-- Access port on VLAN 10, one interface at datapath port 1, selected by
mirror 0 as a source. -/
def fxP0 : Port :=
  { defaultPort with
    name := "p0", port_idx := 0, vlan := 10,
    ifaces := [mkIface 0 1 true], src_mirrors := 1 }

/-- Trunk port at datapath port 2, reserved as a mirror output port. -/
def fxP1 : Port :=
  { defaultPort with
    name := "p1", port_idx := 1, vlan := -1,
    ifaces := [mkIface 0 2 true], is_mirror_output_port := true }

/-- SPAN mirror whose output port is `fxP1` (position 1). -/
def fxM0 : Mirror :=
  { name := "m0", idx := 0, src_ports := ["p0"], dst_ports := [],
    vlans := [], out_vlan := -1, out_port := some 1 }

/-- Bridge for the hairpin counterexample: the destination MAC is learned on
the ingress port and mirror 0 picks up the ingress port's traffic. -/
def fxBrHairpin : Bridge :=
  { name := "br0", ports := [fxP0, fxP1], mirrors := [some fxM0],
    ml := [{ mac := [170, 0, 0, 0, 0, 2], vlan := 10, port_idx := 0, tag := 0 }],
    has_bonded_ports := false, flush := false }

/-- Bridge for the mirror-isolation counterexample: no mirrors at all, but
the learning table maps the destination MAC to the mirror output port. -/
def fxBrPoisoned : Bridge :=
  { name := "br0", ports := [{ fxP0 with src_mirrors := 0 }, fxP1], mirrors := [],
    ml := [{ mac := [170, 0, 0, 0, 0, 2], vlan := 10, port_idx := 1, tag := 0 }],
    has_bonded_ports := false, flush := false }

/-- Untagged unicast frame from AA:…:01 to AA:…:02 entering at datapath
port 1. -/
def fxFlow : Flow :=
  { in_port := 1, dl_src := [170, 0, 0, 0, 0, 1], dl_dst := [170, 0, 0, 0, 0, 2],
    dl_vlan := OFP_VLAN_NONE, dl_type := 0x0800, nw_proto := 0 }

/-- Two-slave bonded port, slave 0 active, both carriers up. -/
def fxBond : Port :=
  { defaultPort with
    name := "p3", ifaces := [mkIface 0 3 true, mkIface 1 4 true],
    active_iface := 0 }

/-- Bonded port for the rebalance-trigger counterexample: slave 0 carries
two 50 kB hashes, slave 1 one 1 kB hash. -/
def fxRebal : Port :=
  { defaultPort with
    ifaces := [mkIface 0 3 true, mkIface 1 4 true],
    bond_hash := [{ iface_idx := 0, tx_bytes := 50000, iface_tag := 0 },
                  { iface_idx := 0, tx_bytes := 50000, iface_tag := 0 },
                  { iface_idx := 1, tx_bytes := 1000, iface_tag := 0 }] }

/-- Bonded port with every slave disabled and one loaded hash entry. -/
def fxAllDown : Port :=
  { defaultPort with
    ifaces := [mkIface 0 3 false, mkIface 1 4 false],
    bond_hash := [{ iface_idx := 0, tx_bytes := 128, iface_tag := 0 }] }

/-- As `fxAllDown` but with the slaves enabled. -/
def fxDecay : Port :=
  { fxAllDown with ifaces := [mkIface 0 3 true, mkIface 1 4 true] }

/-- Bonded port whose only hash entry points at the last slave. -/
def fxHashTail : Port :=
  { defaultPort with
    ifaces := [mkIface 0 3 true, mkIface 1 4 true],
    bond_hash := [{ iface_idx := 1, tx_bytes := 0, iface_tag := 0 }],
    active_iface := 0 }

/-- Bridge owning `fxHashTail`. -/
def fxBrHashTail : Bridge :=
  { name := "b", ports := [fxHashTail], mirrors := [], ml := [],
    has_bonded_ports := true, flush := false }

/-- Port named "a" with no interfaces, target of the mirror fixtures. -/
def fxPA : Port := { defaultPort with name := "a" }

/-- Empty mirror in slot 0. -/
def fxMA : Mirror :=
  { name := "m", idx := 0, src_ports := [], dst_ports := [], vlans := [],
    out_vlan := -1, out_port := none }

/-- Mirror configuration whose only selection is a nonexistent source port:
per the spec this must destroy the mirror. -/
def fxCfgSrcGhost : MirrorCfg :=
  { output_port := some "a", output_vlan := none,
    select_src_port := ["ghost"], select_dst_port := [], select_vlan := [] }

/-! ### Claim C2 -/

/-- Claim C2: a frame carrying a non-zero 802.1Q tag arriving on an access
port (vlan ≥ 0) gets the drop indication −1 from `flow_get_vlan`, and an
untagged frame (dl_vlan 0 or `OFP_VLAN_NONE`) arriving on a trunk port whose
trunk set does not contain VLAN 0 also gets −1. -/
theorem C2_vlan_enforcement :
    (∀ (flow : Flow) (p : Port) (hp : Bool), 0 ≤ p.vlan → flow.dl_vlan ≠ 0 →
      flow.dl_vlan ≠ OFP_VLAN_NONE → flow_get_vlan flow p hp = -1) ∧
    (∀ (flow : Flow) (p : Port) (hp : Bool), p.vlan < 0 →
      (flow.dl_vlan = 0 ∨ flow.dl_vlan = OFP_VLAN_NONE) → 0 ∉ p.trunks →
      flow_get_vlan flow p hp = -1) := by
  constructor
  · intro flow p hp h1 h2 h3
    simp [flow_get_vlan, h1, h2, h3]
  · intro flow p hp h1 h2 h3
    have hnotge : ¬ p.vlan ≥ 0 := by omega
    have hv : (if flow.dl_vlan = OFP_VLAN_NONE then 0 else flow.dl_vlan) = 0 := by
      rcases h2 with h | h <;> simp [h]
    have hni : port_includes_vlan p 0 = false := by
      simp only [port_includes_vlan, port_trunks_vlan, Bool.or_eq_false_iff,
        Bool.and_eq_false_iff]
      constructor
      · simpa using (by omega : ¬ ((0 : Int) = p.vlan))
      · right
        simpa using h3
    simp only [flow_get_vlan, hv, hnotge, if_false, hni]
    simp

/-- Witness for C2 at concrete inputs. -/
theorem C2_vlan_enforcement_witness :
    flow_get_vlan { fxFlow with dl_vlan := 20 } fxP0 true = -1 ∧
    flow_get_vlan fxFlow { fxP1 with is_mirror_output_port := false } true = -1 := by
  refine ⟨C2_vlan_enforcement.1 _ _ _ (by decide) (by decide) (by decide),
    C2_vlan_enforcement.2 _ _ _ (by decide) (Or.inr (by decide)) (by decide)⟩

/-! ### Claim C5 -/

/-- Claim C5 (code bug): `port_reconfigure` assigns `port->updelay` from
`cfg->bond_downdelay` (bridge.c:3014) and never assigns `port->downdelay`
from the configuration, so a port configured with `bond_downdelay = 200` has
`downdelay = 0` (and `updelay = 200`); an ENABLED slave that loses carrier at
t₀ = 0 is then disabled by the first `bond_run` tick at t = 0, i.e. before
t₀ + 200, contradicting the claimed timing.  (The short-circuit half of the
claim does hold: disabling the active slave immediately elects slave 1.) -/
theorem C5_bond_downdelay_bug :
    (port_reconfigure_delays fxBond 0 200).downdelay = 0 ∧
    (port_reconfigure_delays fxBond 0 200).updelay = 200 ∧
    ((bond_run_port 0 (bond_link_status_update 0
        (port_reconfigure_delays fxBond 0 200) 0 false)).ifaces.getD 0
        defaultIface).enabled = false ∧
    (bond_run_port 0 (bond_link_status_update 0
        (port_reconfigure_delays fxBond 0 200) 0 false)).active_iface = 1 := by
  decide

/-! ### Claim C9 -/

/-- Claim C9 (code bug): `any_ports_specified` at bridge.c:3715 reads
`cfg->n_select_dst_port` twice (never `n_select_src_port`), so a mirror whose
only selection is a nonexistent source port is not destroyed; it is instead
kept and, with no other criteria, treated as matching all ports (both mask
bits of port "a" get set).  The other two behaviours of the claim are
correct: a nonexistent output port destroys the mirror, and an output port
together with an output VLAN is accepted with `out_vlan` left at −1. -/
theorem C9_mirror_selection_bug :
    (mirror_reconfigure_one [fxPA] fxMA fxCfgSrcGhost).1.isSome = true ∧
    ((mirror_reconfigure_one [fxPA] fxMA fxCfgSrcGhost).2.map
      (fun p => (p.src_mirrors, p.dst_mirrors))) = [(1, 1)] ∧
    (mirror_reconfigure_one [fxPA] fxMA
      { fxCfgSrcGhost with select_src_port := [], select_dst_port := ["ghost"] }).1
      = none ∧
    (mirror_reconfigure_one [fxPA] fxMA
      { fxCfgSrcGhost with output_port := some "zz", select_src_port := [] }).1
      = none ∧
    ((mirror_reconfigure_one [fxPA] fxMA
      { fxCfgSrcGhost with output_vlan := some 99, select_src_port := [] }).1.map
      Mirror.out_vlan) = some (-1) := by
  decide

/-! ### Claims C6, C7, C8: counterexamples -/

/-- Claim C6 counterexample: on `fxRebal` the most-loaded slave (100000
bytes over two hashes) exceeds the least-loaded slave (1000 bytes) by far
more than ~3 % (`1000 >>> 5 = 31 ≤ 99000`), it can shed a hash, and shifting
the first 50000-byte hash would cut the load ratio from 100 to about 1.02 —
yet `bond_rebalance_port` migrates nothing (every `iface_idx` is unchanged
and `bond_compat_is_stale` stays false), because the source `break`s when the
overload is below either threshold (`overload < 100000` here), not below
both.  The claim's "≥ ~3 % more **or** ≥ ~1 Mbit/s more" trigger is
therefore false; the code requires the conjunction. -/
theorem C6_rebalance_trigger_counterexample :
    ((bond_rebalance_port fxRebal).bond_hash.map BondEntry.iface_idx = [0, 0, 1]
      ∧ (bond_rebalance_port fxRebal).bond_compat_is_stale = false)
    ∧ 1000 >>> 5 ≤ 100000 - 1000
    ∧ (bond_rebalance_port fxRebal).ifaces.length = 2
    ∧ hash_migration_ok 100000 1000 50000 = true := by
  refine ⟨by decide, by decide, by decide, ?_⟩
  norm_num [hash_migration_ok]

/-- Claim C7 counterexample: on a bonded port whose slaves are all disabled,
`bond_rebalance_port` returns before the EWMA decay (the early `return` in
the disabled-tail shrink loop), so after 7 no-traffic rebalance runs the
entry still holds its original 128 bytes, and `128 < 128/100` is false. -/
theorem C7_ewma_counterexample :
    ((Nat.iterate bond_rebalance_port 7 fxAllDown).bond_hash.getD 0 defBE).tx_bytes
      = 128
    ∧ ¬ (100 * ((Nat.iterate bond_rebalance_port 7 fxAllDown).bond_hash.getD 0
        defBE).tx_bytes < 128) := by
  decide

/-- The bond-hash index invariant of the spec: every entry is unassigned
(−1) or points inside the port's interface sequence. -/
def bond_hash_valid (port : Port) : Prop :=
  ∀ e ∈ port.bond_hash,
    e.iface_idx = -1 ∨ (0 ≤ e.iface_idx ∧ e.iface_idx < (port.ifaces.length : Int))

instance (port : Port) : Decidable (bond_hash_valid port) := by
  unfold bond_hash_valid; infer_instance

/-- Claim C8 counterexample: `iface_destroy` fills the freed slot from the
tail and rewrites the displaced interface's `port_ifidx`, but never touches
the bond hash table.  Destroying slave 0 of a two-slave port whose hash
entry points at slave 1 leaves the entry at `iface_idx = 1` while
`n_ifaces = 1`, breaking the invariant. -/
theorem C8_iface_destroy_counterexample :
    bond_hash_valid fxHashTail
    ∧ ¬ bond_hash_valid ((iface_destroy fxBrHashTail 0 0).ports.getD 0 defaultPort)
    ∧ ((iface_destroy fxBrHashTail 0 0).ports.getD 0 defaultPort).ifaces.length = 1
    ∧ (((iface_destroy fxBrHashTail 0 0).ports.getD 0 defaultPort).bond_hash.getD 0
        defBE).iface_idx = 1 := by
  decide

/-! ### List helper lemmas -/

theorem listModify_length {a : Type} (l : List a) (i : Nat) (f : a → a) :
    (listModify l i f).length = l.length := by
  induction l generalizing i with
  | nil => rfl
  | cons x xs ih =>
    cases i with
    | zero => rfl
    | succ n => simpa [listModify] using ih n

theorem listModify_get? {a : Type} (l : List a) (i : Nat) (f : a → a) (k : Nat) :
    (listModify l i f).get? k = if k = i then (l.get? k).map f else l.get? k := by
  induction l generalizing i k with
  | nil => simp [listModify]
  | cons x xs ih =>
    cases i with
    | zero =>
      cases k with
      | zero => simp [listModify]
      | succ m => simp [listModify]
    | succ n =>
      cases k with
      | zero => simp [listModify]
      | succ m =>
        simp only [listModify, List.get?_cons_succ, ih, Nat.succ_eq_add_one]
        by_cases h : m = n <;> simp [h]

theorem listModify_map_congr {a b : Type} (l : List a) (i : Nat) (f : a → a)
    (g : a → b) (h : ∀ x, g (f x) = g x) : (listModify l i f).map g = l.map g := by
  induction l generalizing i with
  | nil => rfl
  | cons x xs ih =>
    cases i with
    | zero => simp [listModify, h]
    | succ n => simp [listModify, ih n]

theorem getD_eq_get? {a : Type} (l : List a) (i : Nat) (d : a) :
    l.getD i d = (l.get? i).getD d := by
  induction l generalizing i with
  | nil => simp
  | cons x xs ih => cases i with
    | zero => simp
    | succ n => simpa using ih n

/-! ### The fields of a port that the packet-path bond operations never
touch -/

/-- The part of a `Port` left untouched by `bond_enable_slave`,
`bond_choose_iface`, `bond_choose_active_iface` and `choose_output_iface`
(they only change enabled flags, delays, tags, the active slave and the bond
hash assignments).  `dps` is the sequence of the interfaces' datapath
indices. -/
structure PortShape where
  name        : String
  port_idx    : Nat
  vlan        : Int
  trunks      : List Nat
  dps         : List Int
  src_mirrors : Nat
  dst_mirrors : Nat
  is_mirror_output_port : Bool
  deriving DecidableEq

/-- The shape of a port. -/
def Port.shape (p : Port) : PortShape :=
  { name := p.name, port_idx := p.port_idx, vlan := p.vlan, trunks := p.trunks,
    dps := p.ifaces.map Iface.dp_ifidx, src_mirrors := p.src_mirrors,
    dst_mirrors := p.dst_mirrors,
    is_mirror_output_port := p.is_mirror_output_port }

theorem shape_ifaces_length (p : Port) : p.shape.dps.length = p.ifaces.length := by
  simp [Port.shape]

/-- The bond slave-election cluster can enable slaves, mint tags and move
the active slave, but it never changes a port's name, indices, VLAN
configuration, mirror masks, the interfaces' datapath bindings, or the bond
hash table. -/
theorem bond_cluster_fields : ∀ (fuel : Nat),
    (∀ m p, (bond_choose_iface fuel m p).2.name = p.name ∧
      (bond_choose_iface fuel m p).2.port_idx = p.port_idx ∧
      (bond_choose_iface fuel m p).2.vlan = p.vlan ∧
      (bond_choose_iface fuel m p).2.trunks = p.trunks ∧
      (bond_choose_iface fuel m p).2.ifaces.map Iface.dp_ifidx
        = p.ifaces.map Iface.dp_ifidx ∧
      (bond_choose_iface fuel m p).2.src_mirrors = p.src_mirrors ∧
      (bond_choose_iface fuel m p).2.dst_mirrors = p.dst_mirrors ∧
      (bond_choose_iface fuel m p).2.is_mirror_output_port = p.is_mirror_output_port ∧
      (bond_choose_iface fuel m p).2.bond_hash = p.bond_hash) ∧
    (∀ m p, (bond_choose_active_iface fuel m p).name = p.name ∧
      (bond_choose_active_iface fuel m p).port_idx = p.port_idx ∧
      (bond_choose_active_iface fuel m p).vlan = p.vlan ∧
      (bond_choose_active_iface fuel m p).trunks = p.trunks ∧
      (bond_choose_active_iface fuel m p).ifaces.map Iface.dp_ifidx
        = p.ifaces.map Iface.dp_ifidx ∧
      (bond_choose_active_iface fuel m p).src_mirrors = p.src_mirrors ∧
      (bond_choose_active_iface fuel m p).dst_mirrors = p.dst_mirrors ∧
      (bond_choose_active_iface fuel m p).is_mirror_output_port
        = p.is_mirror_output_port ∧
      (bond_choose_active_iface fuel m p).bond_hash = p.bond_hash) ∧
    (∀ m p i e, (bond_enable_slave fuel m p i e).name = p.name ∧
      (bond_enable_slave fuel m p i e).port_idx = p.port_idx ∧
      (bond_enable_slave fuel m p i e).vlan = p.vlan ∧
      (bond_enable_slave fuel m p i e).trunks = p.trunks ∧
      (bond_enable_slave fuel m p i e).ifaces.map Iface.dp_ifidx
        = p.ifaces.map Iface.dp_ifidx ∧
      (bond_enable_slave fuel m p i e).src_mirrors = p.src_mirrors ∧
      (bond_enable_slave fuel m p i e).dst_mirrors = p.dst_mirrors ∧
      (bond_enable_slave fuel m p i e).is_mirror_output_port
        = p.is_mirror_output_port ∧
      (bond_enable_slave fuel m p i e).bond_hash = p.bond_hash) := by
  intro fuel
  induction fuel with
  | zero =>
    refine ⟨fun m p => ?_, fun m p => ?_, fun m p i e => ?_⟩ <;>
      simp [bond_choose_iface, bond_choose_active_iface, bond_enable_slave]
  | succ n ih =>
    obtain ⟨ihc, iha, ihe⟩ := ih
    have henable : ∀ m p i e, (bond_enable_slave (n + 1) m p i e).name = p.name ∧
        (bond_enable_slave (n + 1) m p i e).port_idx = p.port_idx ∧
        (bond_enable_slave (n + 1) m p i e).vlan = p.vlan ∧
        (bond_enable_slave (n + 1) m p i e).trunks = p.trunks ∧
        (bond_enable_slave (n + 1) m p i e).ifaces.map Iface.dp_ifidx
          = p.ifaces.map Iface.dp_ifidx ∧
        (bond_enable_slave (n + 1) m p i e).src_mirrors = p.src_mirrors ∧
        (bond_enable_slave (n + 1) m p i e).dst_mirrors = p.dst_mirrors ∧
        (bond_enable_slave (n + 1) m p i e).is_mirror_output_port
          = p.is_mirror_output_port ∧
        (bond_enable_slave (n + 1) m p i e).bond_hash = p.bond_hash := by
      intro m p i e
      simp only [bond_enable_slave]
      split
      · simp [listModify_map_congr]
      · dsimp only
        split
        · split <;> simp [iha, listModify_map_congr]
        · split <;> simp [iha, listModify_map_congr]
    refine ⟨?_, ?_, henable⟩
    · intro m p
      simp only [bond_choose_iface]
      cases hfe : first_enabled_iface p.ifaces with
      | some i => simp
      | none =>
        cases hbd : best_down_slave p.ifaces with
        | none => simp
        | some b => simpa using ihe m p b true
    · intro m p
      simp only [bond_choose_active_iface]
      simpa using ihc m p

theorem mem_listModify {a : Type} (l : List a) (i : Nat) (f : a → a) :
    ∀ x ∈ listModify l i f, x ∈ l ∨ ∃ y ∈ l, x = f y := by
  induction l generalizing i with
  | nil => simp [listModify]
  | cons z zs ih =>
    cases i with
    | zero =>
      intro x hx
      rw [listModify, List.mem_cons] at hx
      rcases hx with h | h
      · exact Or.inr ⟨z, List.mem_cons_self _ _, h⟩
      · exact Or.inl (List.mem_cons_of_mem _ h)
    | succ n =>
      intro x hx
      rw [listModify, List.mem_cons] at hx
      rcases hx with h | h
      · exact Or.inl (h ▸ List.mem_cons_self _ _)
      · rcases ih n x h with h1 | ⟨y, hy, hxy⟩
        · exact Or.inl (List.mem_cons_of_mem _ h1)
        · exact Or.inr ⟨y, List.mem_cons_of_mem _ hy, hxy⟩

theorem first_enabled_lt (l : List Iface) (i : Nat)
    (h : first_enabled_iface l = some i) : i < l.length := by
  simp only [first_enabled_iface] at h
  rcases List.findIdx?_eq_some_iff_getElem.mp h with ⟨hlt, _, _⟩
  exact hlt

theorem best_down_aux (step : (Option Nat × Int × Nat) → Iface → Option Nat × Int × Nat)
    (hstep : step = fun acc i =>
      if i.delay_expires < acc.2.1 then (some acc.2.2, i.delay_expires, acc.2.2 + 1)
      else (acc.1, acc.2.1, acc.2.2 + 1)) :
    ∀ (l : List Iface) (best : Option Nat) (ne : Int) (pos : Nat),
      (∀ k, best = some k → k < pos) →
      ∀ k, (l.foldl step (best, ne, pos)).1 = some k → k < pos + l.length := by
  subst hstep
  intro l
  induction l with
  | nil =>
    intro best ne pos hinv k hk
    simp only [List.foldl_nil] at hk
    simpa using hinv k hk
  | cons x xs ih =>
    intro best ne pos hinv k hk
    simp only [List.foldl_cons] at hk
    by_cases hc : x.delay_expires < ne
    · rw [if_pos hc] at hk
      have := ih (some pos) x.delay_expires (pos + 1)
        (fun k0 hk0 => by cases hk0; omega) k hk
      simpa [List.length_cons] using by omega
    · rw [if_neg hc] at hk
      have := ih best ne (pos + 1) (fun k0 hk0 => Nat.lt_succ_of_lt (hinv k0 hk0)) k hk
      simpa [List.length_cons] using by omega

theorem best_down_lt (l : List Iface) (b : Nat)
    (h : best_down_slave l = some b) : b < l.length := by
  have := best_down_aux _ rfl l none LLONG_MAX 0 (by simp) b
  simpa using this (by simpa [best_down_slave] using h)

/-- `bond_choose_iface` returns −1 or a valid interface index. -/
theorem bond_choose_iface_range (fuel : Nat) (m : Bool) (p : Port) :
    (bond_choose_iface fuel m p).1 = -1 ∨
      (0 ≤ (bond_choose_iface fuel m p).1 ∧
        (bond_choose_iface fuel m p).1 < (p.ifaces.length : Int)) := by
  cases fuel with
  | zero => exact Or.inl rfl
  | succ n =>
    simp only [bond_choose_iface]
    cases hfe : first_enabled_iface p.ifaces with
    | some i =>
      right
      have hlt := first_enabled_lt p.ifaces i hfe
      refine ⟨by simp, ?_⟩
      simpa using hlt
    | none =>
      cases hbd : best_down_slave p.ifaces with
      | none => exact Or.inl rfl
      | some b =>
        right
        have hlt := best_down_lt p.ifaces b hbd
        exact ⟨by simp, by simpa using hlt⟩

/-! ### Claim C8: amended theorem -/

/-- Claim C8 as amended: the hash-assignment path (`choose_output_iface`)
and hash migration (`bond_shift_load`, given that the receiving slave is a
real interface of the port) preserve the invariant that every bond-hash
entry's `iface_idx` is −1 or a valid interface index; interface removal
(`iface_destroy`) does not preserve it (see the counterexample) and the
consumers compensate by range-checking. -/
theorem C8_index_validity_amended :
    (∀ (port : Port) (dl_src : List Nat) (tags : Nat), bond_hash_valid port →
      bond_hash_valid (choose_output_iface port dl_src tags).2.2) ∧
    (∀ (bals : List SlaveBal) (table : List BondEntry) (next_tag f t i n : Nat),
      (∀ e ∈ table, e.iface_idx = -1 ∨ (0 ≤ e.iface_idx ∧ e.iface_idx < (n : Int))) →
      (bals.getD t defSB).ifidx < n →
      ∀ e ∈ (bond_shift_load bals table next_tag f t i).2.1,
        e.iface_idx = -1 ∨ (0 ≤ e.iface_idx ∧ e.iface_idx < (n : Int))) := by
  constructor
  · intro port dl_src tags hvalid
    have hmap := ((bond_cluster_fields 4).1 false port).2.2.2.2.1
    have hbh := ((bond_cluster_fields 4).1 false port).2.2.2.2.2.2.2.2
    have hlen : (bond_choose_iface 4 false port).2.ifaces.length
        = port.ifaces.length := by
      have := congrArg List.length hmap
      simpa using this
    have hrange := bond_choose_iface_range 4 false port
    simp only [choose_output_iface]
    split
    · exact hvalid
    · split
      · exact hvalid
      · split
        · split
          · -- no usable slave: the entry is written with the −1 result
            intro e he
            simp only at he
            rcases mem_listModify _ _ _ e (by simpa [hbh] using he) with h | ⟨y, hy, hxy⟩
            · rcases hvalid e h with h1 | h1
              · exact Or.inl h1
              · exact Or.inr (by simpa [hlen] using h1)
            · subst hxy
              left
              simp only
              omega
          · -- a slave was chosen: the entry is written with a valid index
            intro e he
            simp only at he
            rcases mem_listModify _ _ _ e (by simpa [hbh] using he) with h | ⟨y, hy, hxy⟩
            · rcases hvalid e h with h1 | h1
              · exact Or.inl h1
              · exact Or.inr (by simpa [hlen] using h1)
            · subst hxy
              right
              rcases hrange with h1 | h1
              · omega
              · simpa [hlen] using h1
        · exact hvalid
  · intro bals table next_tag f t i n hvalid hto e he
    simp only [bond_shift_load] at he
    rcases mem_listModify _ _ _ e he with h | ⟨y, hy, hxy⟩
    · exact hvalid e h
    · subst hxy
      right
      constructor
      · simp
      · simpa using hto

/-- Witness for the amended C8 at concrete inputs: a stale hash entry is
rewritten to a valid assignment, and a migration onto slave 1 of a two-slave
port stays in range. -/
theorem C8_index_validity_amended_witness :
    bond_hash_valid (choose_output_iface
      { fxRebal with bond_hash := [{ iface_idx := -1, tx_bytes := 0, iface_tag := 0 }] }
      [170, 0, 0, 0, 0, 1] 0).2.2 ∧
    (∀ e ∈ (bond_shift_load [defSB, { defSB with ifidx := 1 }]
        [{ iface_idx := 0, tx_bytes := 7, iface_tag := 0 }] 0 0 1 0).2.1,
      e.iface_idx = -1 ∨ (0 ≤ e.iface_idx ∧ e.iface_idx < (2 : Int))) := by
  constructor
  · exact C8_index_validity_amended.1 _ _ _ (by decide)
  · exact C8_index_validity_amended.2 _ _ _ _ _ _ 2 (by decide) (by decide)

/-! ### Claim C7: amended theorem -/

theorem listModify_get?_congr {a b : Type} (l : List a) (i : Nat) (f : a → a)
    (g : a → b) (h : ∀ x, g (f x) = g x) (k : Nat) :
    ((listModify l i f).get? k).map g = (l.get? k).map g := by
  rw [listModify_get?]
  by_cases hk : k = i
  · subst hk
    rw [if_pos rfl, Option.map_map]
    congr 1
    funext x
    exact h x
  · rw [if_neg hk]

/-- The migration loop never changes any entry's `tx_bytes` (migrations only
rewrite `iface_idx` and `iface_tag`). -/
theorem rebalance_loop_tx (fuel : Nat) :
    ∀ (bals : List SlaveBal) (f : Nat) (table : List BondEntry)
      (tag : Nat) (st : Bool) (k : Nat),
    ((rebalance_loop fuel bals f table tag st).2.1.get? k).map BondEntry.tx_bytes
      = (table.get? k).map BondEntry.tx_bytes := by
  induction fuel with
  | zero => intro bals f table tag st k; rfl
  | succ n ih =>
    intro bals f table tag st k
    simp only [rebalance_loop]
    split
    · rfl
    · split
      · rfl
      · split
        · exact ih _ _ _ _ _ _
        · split
          · exact ih _ _ _ _ _ _
          · rw [ih]
            simp only [bond_shift_load]
            apply listModify_get?_congr
            intro x
            rfl

theorem mem_insertBy {a : Type} (le : a → a → Bool) (x y : a) (l : List a) :
    y ∈ insertBy le x l ↔ y = x ∨ y ∈ l := by
  induction l with
  | nil => simp [insertBy]
  | cons z zs ih =>
    simp only [insertBy]
    split <;> simp only [List.mem_cons, ih] <;> tauto

theorem mem_sortBy {a : Type} (le : a → a → Bool) (x : a) (l : List a) :
    x ∈ sortBy le l ↔ x ∈ l := by
  induction l with
  | nil => simp [sortBy]
  | cons z zs ih => simp [sortBy, mem_insertBy, ih]

theorem dropWhile_ne_nil_of_exists {a : Type} (p : a → Bool) (l : List a)
    (h : ∃ x ∈ l, p x = true) : l.dropWhile (fun y => ¬ p y) ≠ [] := by
  induction l with
  | nil => simp at h
  | cons z zs ih =>
    rw [List.dropWhile_cons]
    split
    · rename_i hz
      apply ih
      rcases h with ⟨x, hx, hpx⟩
      rcases List.mem_cons.mp hx with rfl | hmem
      · simp [hpx] at hz
      · exact ⟨x, hmem, hpx⟩
    · simp

theorem drop_trailing_disabled_ne_nil (bals : List SlaveBal)
    (h : ∃ b ∈ bals, b.enabled = true) : drop_trailing_disabled bals ≠ [] := by
  unfold drop_trailing_disabled
  intro hc
  have h2 : bals.reverse.dropWhile (fun b => ¬ b.enabled) = [] := by
    have := congrArg List.reverse hc
    simpa using this
  rcases h with ⟨b, hb, hbe⟩
  exact dropWhile_ne_nil_of_exists (fun b => b.enabled) bals.reverse
    ⟨b, by simpa using hb, hbe⟩ h2

/-- One rebalance run leaves the interface sequence untouched. -/
theorem bond_rebalance_port_ifaces (port : Port) :
    (bond_rebalance_port port).ifaces = port.ifaces := by
  simp only [bond_rebalance_port]
  split <;> rfl

theorem map_halve_tx (fuel : Nat) (bals : List SlaveBal) (f0 : Nat)
    (table : List BondEntry) (tag : Nat) (st : Bool) (k : Nat) :
    (((rebalance_loop fuel bals f0 table tag st).2.1.map
        (fun e => { e with tx_bytes := e.tx_bytes / 2 })).get? k).map
        BondEntry.tx_bytes
      = ((table.get? k).map BondEntry.tx_bytes).map (· / 2) := by
  rw [List.get?_map]
  have hl := rebalance_loop_tx fuel bals f0 table tag st k
  cases hE : (rebalance_loop fuel bals f0 table tag st).2.1.get? k with
  | none =>
    rw [hE] at hl
    cases hP : table.get? k with
    | none => simp
    | some e0 => rw [hP] at hl; simp at hl
  | some e =>
    rw [hE] at hl
    cases hP : table.get? k with
    | none => rw [hP] at hl; simp at hl
    | some e0 =>
      rw [hP] at hl
      simp at hl
      simp [hl]

/-- One rebalance run on a port with an enabled slave halves every hash
entry's `tx_bytes`. -/
theorem bond_rebalance_port_tx (port : Port)
    (h : ∃ i ∈ port.ifaces, i.enabled = true) (k : Nat) :
    ((bond_rebalance_port port).bond_hash.get? k).map BondEntry.tx_bytes
      = ((port.bond_hash.get? k).map BondEntry.tx_bytes).map (· / 2) := by
  simp only [bond_rebalance_port]
  split
  · rename_i hzero
    exfalso
    apply drop_trailing_disabled_ne_nil _ ?_ (List.length_eq_zero.mp hzero)
    rcases h with ⟨i, hi, hien⟩
    rcases List.mem_iff_getElem.mp hi with ⟨j, hj, hji⟩
    refine ⟨_, (mem_sortBy _ _ _).mpr (List.mem_map.mpr
      ⟨j, List.mem_range.mpr hj, rfl⟩), ?_⟩
    show (port.ifaces.getD j defaultIface).enabled = true
    rw [getD_eq_get?, List.get?_eq_getElem?, List.getElem?_eq_getElem hj, hji]
    simpa using hien
  · exact map_halve_tx _ _ _ _ _ _ _

/-- `n` rebalance runs divide every entry's `tx_bytes` by `2^n`, provided
some slave stays enabled (the interface sequence is untouched by the runs,
so one hypothesis covers all of them). -/
theorem iterate_rebalance_tx (n : Nat) :
    ∀ (port : Port), (∃ i ∈ port.ifaces, i.enabled = true) →
    ∀ (k : Nat) (e : BondEntry),
      (Nat.iterate bond_rebalance_port n port).bond_hash.get? k = some e →
      ∃ e0, port.bond_hash.get? k = some e0 ∧ e.tx_bytes = e0.tx_bytes / 2 ^ n := by
  induction n with
  | zero => exact fun port h k e he => ⟨e, he, by simp⟩
  | succ n ih =>
    intro port h k e he
    have hq : ∃ i ∈ (bond_rebalance_port port).ifaces, i.enabled = true := by
      rw [bond_rebalance_port_ifaces]
      exact h
    obtain ⟨e1, he1, htx⟩ := ih (bond_rebalance_port port) hq k e
      (by rw [← Function.iterate_succ_apply]; exact he)
    have hhalf := bond_rebalance_port_tx port h k
    rw [he1] at hhalf
    cases hP : port.bond_hash.get? k with
    | none => rw [hP] at hhalf; simp at hhalf
    | some e0 =>
      rw [hP] at hhalf
      simp at hhalf
      refine ⟨e0, rfl, ?_⟩
      rw [htx, hhalf, Nat.div_div_eq_div_mul]
      congr 1
      rw [pow_succ]
      ring

theorem hundred_mul_div_128_lt (x : Nat) (h : 1 ≤ x) : 100 * (x / 128) < x := by
  rcases Nat.lt_or_ge x 128 with h1 | h1
  · rw [Nat.div_eq_of_lt h1]
    omega
  · have hq : 1 ≤ x / 128 := (Nat.one_le_div_iff (by norm_num)).mpr h1
    have h2 := Nat.div_mul_le_self x 128
    nlinarith

/-- Claim C7 as amended: on a bonded port that keeps at least one enabled
slave (so the decay is not skipped by the early return), 7 rebalance runs
with no intervening traffic leave every hash entry whose original `tx_bytes`
was at least 1 with less than a hundredth of it (`100·new < old`); the runs
divide by 2 each time, so the residue is `old / 128`. -/
theorem C7_ewma_decay (port : Port) (h : ∃ i ∈ port.ifaces, i.enabled = true)
    (k : Nat) (e e0 : BondEntry)
    (he : (Nat.iterate bond_rebalance_port 7 port).bond_hash.get? k = some e)
    (he0 : port.bond_hash.get? k = some e0) (h1 : 1 ≤ e0.tx_bytes) :
    100 * e.tx_bytes < e0.tx_bytes := by
  obtain ⟨e1, he1, htx⟩ := iterate_rebalance_tx 7 port h k e he
  have he10 : e1 = e0 := Option.some_inj.mp (he1.symm.trans he0)
  subst he10
  rw [htx]
  have h128 : (2 : Nat) ^ 7 = 128 := by norm_num
  rw [h128]
  exact hundred_mul_div_128_lt _ h1

/-- Witness for the amended C7: on `fxDecay` (one 128-byte entry, enabled
slaves) the entry decays to 1 byte after 7 runs, and `100·1 < 128`. -/
theorem C7_ewma_decay_witness :
    100 * ({ iface_idx := 0, tx_bytes := 1, iface_tag := 0 } : BondEntry).tx_bytes
      < ({ iface_idx := 0, tx_bytes := 128, iface_tag := 0 } : BondEntry).tx_bytes :=
  C7_ewma_decay fxDecay ⟨mkIface 0 3 true, by decide, rfl⟩ 0 _ _
    (by decide) (by decide) (by decide)

/-! ### Claim C6: amended theorem -/

/-- The migration-selection loop picks exactly the first hash (in the
ascending `tx_bytes` order of the donor's hash list) passing
`hash_migration_ok`. -/
theorem choose_hash_first (F T : Nat) (table : List BondEntry) :
    ∀ (hashes : List Nat) (i : Nat),
      choose_hash F T table hashes = some i ↔
        (∃ x, hashes.get? i = some x ∧
          hash_migration_ok F T ((table.getD x defBE).tx_bytes) = true) ∧
        ∀ j, j < i → ∀ y, hashes.get? j = some y →
          hash_migration_ok F T ((table.getD y defBE).tx_bytes) = false := by
  intro hashes
  induction hashes with
  | nil => intro i; simp [choose_hash]
  | cons x xs ih =>
    intro i
    simp only [choose_hash, List.findIdx?_cons]
    split
    · rename_i hx
      cases i with
      | zero => simp_all
      | succ n =>
        simp only [Option.some.injEq]
        constructor
        · omega
        · rintro ⟨-, hall⟩
          exact absurd hx (by simpa using hall 0 (Nat.succ_pos n) x rfl)
    · rename_i hx
      simp only [List.findIdx?_start_succ, Nat.zero_add, Option.map_eq_some']
      cases i with
      | zero =>
        constructor
        · rintro ⟨a, -, h0⟩
          omega
        · rintro ⟨⟨y, hy, hok⟩, -⟩
          rw [List.get?_cons_zero] at hy
          cases hy
          simp_all
      | succ n =>
        constructor
        · rintro ⟨a, ha, h0⟩
          have han : a = n := by omega
          subst han
          rcases (ih a).mp (show choose_hash F T table xs = some a from ha) with
            ⟨⟨y, hy, hok⟩, hall⟩
          refine ⟨⟨y, by simpa using hy, hok⟩, ?_⟩
          intro j hj z hz
          cases j with
          | zero =>
            rw [List.get?_cons_zero] at hz
            cases hz
            simpa using hx
          | succ m =>
            rw [List.get?_cons_succ] at hz
            exact hall m (by omega) z hz
        · rintro ⟨⟨y, hy, hok⟩, hall⟩
          refine ⟨n, ?_, rfl⟩
          show choose_hash F T table xs = some n
          apply (ih n).mpr
          refine ⟨⟨y, by simpa using hy, hok⟩, ?_⟩
          intro j hj z hz
          exact hall (j + 1) (by omega) z (by simpa using hz)

/-- Claim C6 as amended: (1) one pass of the migration loop stops without
attempting any migration as soon as the most-loaded slave's overload over the
least-loaded slave is below EITHER threshold (~3 % = `to.tx_bytes >>> 5`, or
100000 bytes ≈ 1 Mbit/s over the 10 s window) — i.e. a migration is attempted
only under the conjunction of the two conditions, not the disjunction; (2)
when both thresholds are met and the loaded slave carries more than one hash
and some hash qualifies, the step migrates exactly the chosen hash and
continues; (3) the migrated hash entry is reassigned to the receiving slave
with a fresh tag; (4) the hash chosen is the first of the loaded slave's
hashes — which are in ascending `tx_bytes` order — whose migration passes
`hash_migration_ok` (ratio reduction strictly above 0.1, or an idle
target). -/
theorem C6_rebalance_trigger_amended :
    (∀ (fuel : Nat) (bals : List SlaveBal) (f : Nat) (table : List BondEntry)
        (tag : Nat) (st : Bool),
      f + 1 < bals.length →
      ((bals.getD f defSB).tx_bytes - (bals.getD (bals.length - 1) defSB).tx_bytes
          < (bals.getD (bals.length - 1) defSB).tx_bytes >>> 5 ∨
        (bals.getD f defSB).tx_bytes - (bals.getD (bals.length - 1) defSB).tx_bytes
          < 100000) →
      rebalance_loop (fuel + 1) bals f table tag st = (bals, table, tag, st)) ∧
    (∀ (fuel : Nat) (bals : List SlaveBal) (f : Nat) (table : List BondEntry)
        (tag : Nat) (st : Bool) (i : Nat),
      f + 1 < bals.length →
      (bals.getD (bals.length - 1) defSB).tx_bytes >>> 5
        ≤ (bals.getD f defSB).tx_bytes
          - (bals.getD (bals.length - 1) defSB).tx_bytes →
      100000 ≤ (bals.getD f defSB).tx_bytes
          - (bals.getD (bals.length - 1) defSB).tx_bytes →
      (bals.getD f defSB).hashes.length ≠ 1 →
      choose_hash (bals.getD f defSB).tx_bytes
          (bals.getD (bals.length - 1) defSB).tx_bytes table
          (bals.getD f defSB).hashes = some i →
      ∃ bals3, rebalance_loop (fuel + 1) bals f table tag st
        = rebalance_loop fuel bals3 f
            (bond_shift_load bals table tag f (bals.length - 1) i).2.1
            (tag + 1) true) ∧
    (∀ (bals : List SlaveBal) (table : List BondEntry) (tag f t i h0 : Nat)
        (e0 : BondEntry),
      (bals.getD f defSB).hashes.getD i 0 = h0 → table.get? h0 = some e0 →
      (bond_shift_load bals table tag f t i).2.1.get? h0
        = some { iface_idx := ((bals.getD t defSB).ifidx : Int),
                 tx_bytes := e0.tx_bytes, iface_tag := tag }) ∧
    (∀ (F T : Nat) (table : List BondEntry) (hashes : List Nat) (i : Nat),
      choose_hash F T table hashes = some i ↔
        (∃ x, hashes.get? i = some x ∧
          hash_migration_ok F T ((table.getD x defBE).tx_bytes) = true) ∧
        ∀ j, j < i → ∀ y, hashes.get? j = some y →
          hash_migration_ok F T ((table.getD y defBE).tx_bytes) = false) := by
  refine ⟨?_, ?_, ?_, fun F T table hashes i => choose_hash_first F T table hashes i⟩
  · intro fuel bals f table tag st hf hbreak
    simp only [rebalance_loop]
    rw [if_neg (by omega)]
    split
    · rfl
    · rename_i hcond
      exfalso
      simp only [Bool.or_eq_true, decide_eq_true_eq, not_or, not_lt] at hcond
      omega
  · intro fuel bals f table tag st i hf h3 h1m hn hch
    simp only [rebalance_loop]
    rw [if_neg (by omega)]
    split
    · rename_i hcond
      exfalso
      simp only [Bool.or_eq_true, decide_eq_true_eq] at hcond
      omega
    · rw [hch]
      exact ⟨_, rfl⟩
  · intro bals table tag f t i h0 e0 hh he0
    simp only [bond_shift_load]
    rw [listModify_get?, hh, if_pos rfl, he0]
    rfl

/-- Witness for the amended C6: on the counterexample balances the loop
stops (overload 99000 < 100000 even though it exceeds ~3 %), and on a
600000+600000 vs 0 split both thresholds hold, the donor has two hashes,
hash 0 qualifies (idle target), and the step migrates it and continues. -/
theorem C6_rebalance_trigger_amended_witness :
    rebalance_loop 1 [⟨0, true, 100000, [0, 1]⟩, ⟨1, true, 1000, [2]⟩] 0
        fxRebal.bond_hash 0 false
      = ([⟨0, true, 100000, [0, 1]⟩, ⟨1, true, 1000, [2]⟩], fxRebal.bond_hash, 0, false)
    ∧ ∃ bals3,
        rebalance_loop 1 [⟨0, true, 1200000, [0, 1]⟩, ⟨1, true, 0, [2]⟩] 0
          [⟨0, 600000, 0⟩, ⟨0, 600000, 0⟩, ⟨1, 0, 0⟩] 0 false
        = rebalance_loop 0 bals3 0
            (bond_shift_load [⟨0, true, 1200000, [0, 1]⟩, ⟨1, true, 0, [2]⟩]
              [⟨0, 600000, 0⟩, ⟨0, 600000, 0⟩, ⟨1, 0, 0⟩] 0 0 1 0).2.1 1 true := by
  refine ⟨C6_rebalance_trigger_amended.1 0 _ 0 _ 0 false (by decide)
      (Or.inr (by decide)),
    C6_rebalance_trigger_amended.2.1 0 _ 0 _ 0 false 0 (by decide) (by decide)
      (by decide) (by decide) (by decide)⟩

/-! ### Claim C1 -/

/-- An empty mirror workset adds no destinations. -/
theorem compose_mirrors_zero (marr : List (Option Mirror)) (flow : Flow)
    (vlan in_idx : Nat) (fuel : Nat) (acc : List Dst × Nat × List Port) :
    compose_mirrors marr flow vlan in_idx fuel 0 acc = acc := by
  cases fuel <;> simp [compose_mirrors]

/-- The index returned by the tag-accumulating lookup is the plain lookup. -/
theorem lookup_tag_fst (ml : List MacEntry) (mac : List Nat) (vlan tags : Nat) :
    (mac_learning_lookup_tag ml mac vlan tags).1 = mac_learning_lookup ml mac vlan := by
  simp only [mac_learning_lookup_tag, mac_learning_lookup]
  cases ml.find? (fun e => e.mac = mac && e.vlan = vlan) <;> simp

/-- With a NULL out port and no source mirrors on the ingress port, the
composed action list is empty. -/
theorem compose_actions_null (br : Bridge) (flow : Flow) (vlan in_idx tags nf0 : Nat)
    (h : (br.ports.getD in_idx defaultPort).src_mirrors = 0) :
    (compose_actions br flow vlan in_idx OutSpec.null tags nf0).1 = [] := by
  simp only [compose_actions, compose_dsts, h, compose_mirrors_zero]
  rfl

/-- Claim C1 counterexample: on `fxBrHairpin` the destination MAC resolves
(through the learning table process_flow consults after learning the source)
to the ingress port itself — yet the composed action list is not empty,
because mirror 0 selects the ingress port's traffic and its SPAN output is
emitted even for hairpin flows.  "For every bridge state … the forwarding
decision returns an empty list" is therefore false as stated. -/
theorem C1_hairpin_counterexample :
    mac_learning_lookup (update_learning_table fxBrHairpin.ml fxFlow 10
        (fxBrHairpin.ports.getD 0 defaultPort)) fxFlow.dl_dst 10
      = ((fxBrHairpin.ports.getD 0 defaultPort).port_idx : Int)
    ∧ iface_from_dp_ifidx fxBrHairpin.ports fxFlow.in_port = some (0, 0)
    ∧ (process_flow fxBrHairpin fxFlow true 0 0).2.1 ≠ [] := by
  decide

set_option maxHeartbeats 2000000 in
/-- Claim C1 as amended: when the learning table that `process_flow`
consults (after the source-MAC learning step, when a packet is present)
resolves the destination MAC to the ingress port AND no mirror selects the
ingress port's traffic (`src_mirrors = 0`), the composed action list is
empty.  Without the mirror hypothesis the hairpin drop only suppresses the
normal egress; mirror outputs are still composed, as the counterexample
shows. -/
theorem C1_hairpin_amended (br : Bridge) (flow : Flow) (hp : Bool)
    (tags nf0 pi ii : Nat) (mlX : List MacEntry)
    (hif : iface_from_dp_ifidx br.ports flow.in_port = some (pi, ii))
    (hlen : pi < br.ports.length)
    (hml : mlX = if hp then update_learning_table br.ml flow
        (flow_get_vlan flow (br.ports.getD pi defaultPort) hp).toNat
        (br.ports.getD pi defaultPort) else br.ml)
    (hhit : mac_learning_lookup mlX flow.dl_dst
        (flow_get_vlan flow (br.ports.getD pi defaultPort) hp).toNat = (pi : Int))
    (hsm : (br.ports.getD pi defaultPort).src_mirrors = 0) :
    (process_flow br flow hp tags nf0).2.1 = [] := by
  simp only [process_flow, hif]
  rw [← hml]
  repeat' split
  all_goals first
    | exact compose_actions_null _ _ _ _ _ _ hsm
    | rfl
    | (exfalso
       rename_i hne
       rw [lookup_tag_fst, hhit] at hne
       exact hne rfl)
    | (exfalso
       rename_i hrange
       rw [lookup_tag_fst, hhit] at hrange
       exact hrange ⟨Int.ofNat_nonneg pi, by exact_mod_cast hlen⟩)
    | (exfalso
       rename_i hrange hej
       rw [lookup_tag_fst, hhit] at hrange
       exact hrange ⟨Int.ofNat_nonneg pi, by exact_mod_cast hlen⟩)

/-! ### Claim C3 -/

/-- The `uint16` datapath indices reachable through a port's interfaces. -/
def portDpSet (p : Port) : List Nat := p.ifaces.map (fun i => u16ofInt i.dp_ifidx)

theorem getD_mem {a : Type} (l : List a) (i : Nat) (d : a) (h : i < l.length) :
    l.getD i d ∈ l := by
  rw [getD_eq_get?, List.get?_eq_getElem?, List.getElem?_eq_getElem h]
  exact List.getElem_mem h

theorem getD_map {a b : Type} (g : a → b) (l : List a) (i : Nat) (d : a) :
    (l.map g).getD i (g d) = g (l.getD i d) := by
  induction l generalizing i with
  | nil => simp
  | cons x xs ih => cases i with
    | zero => simp
    | succ n => simpa using ih n

theorem listModify_map_pointwise {a b : Type} (l : List a) (i : Nat) (f : a → a)
    (g : a → b) (d : a) (h : i < l.length → g (f (l.getD i d)) = g (l.getD i d)) :
    (listModify l i f).map g = l.map g := by
  induction l generalizing i with
  | nil => rfl
  | cons x xs ih =>
    cases i with
    | zero =>
      have hx := h (Nat.succ_pos _)
      simpa [listModify] using hx
    | succ n =>
      simp only [listModify, List.map_cons, List.cons.injEq, true_and]
      exact ih n (fun hn => h (by simpa using Nat.succ_lt_succ hn))

/-- `choose_output_iface` never changes the port's shape (it only rewrites
the bond hash table, tags and possibly enables a slave). -/
theorem shape_choose_output (port : Port) (src : List Nat) (tags : Nat) :
    ((choose_output_iface port src tags).2.2).shape = port.shape := by
  rcases (bond_cluster_fields 4).1 false port with
    ⟨h1, h2, h3, h4, h5, h6, h7, h8, h9⟩
  simp only [choose_output_iface]
  split
  · rfl
  · split
    · rfl
    · split
      · split <;> simp [Port.shape, PortShape.mk.injEq, h1, h2, h3, h4, h5, h6, h7, h8]
      · rfl

/-- `set_dst` never changes the out port's shape. -/
theorem shape_set_dst (flow : Flow) (inp outp : Port) (tags : Nat) :
    ((set_dst flow inp outp tags).2.2).shape = outp.shape := by
  simp only [set_dst]
  cases hr : (choose_output_iface outp flow.dl_src tags).1 with
  | some dp =>
    have := shape_choose_output outp flow.dl_src tags
    simpa [hr] using this
  | none =>
    have := shape_choose_output outp flow.dl_src tags
    simpa [hr] using this

/-- A chosen output interface index lies among the port's datapath ports. -/
theorem choose_output_dp_mem (port : Port) (src : List Nat) (tags : Nat) (dp : Nat)
    (h : (choose_output_iface port src tags).1 = some dp) : dp ∈ portDpSet port := by
  rcases (bond_cluster_fields 4).1 false port with
    ⟨h1, h2, h3, h4, h5, h6, h7, h8, h9⟩
  have hdpmap : ∀ (q : Port), q.ifaces.map Iface.dp_ifidx = port.ifaces.map Iface.dp_ifidx →
      ∀ k, k < q.ifaces.length →
      u16ofInt (q.ifaces.getD k defaultIface).dp_ifidx ∈ portDpSet port := by
    intro q hq k hk
    have hsets : portDpSet q = portDpSet port := by
      have hcomp : ∀ (r : Port), portDpSet r = (r.ifaces.map Iface.dp_ifidx).map u16ofInt := by
        intro r
        simp [portDpSet, List.map_map]
      rw [hcomp q, hcomp port, hq]
    rw [← hsets]
    exact List.mem_map_of_mem _ (getD_mem _ _ _ hk)
  simp only [choose_output_iface] at h
  split at h
  · exact absurd h (by simp)
  · split at h
    · rename_i hn0 hn1
      simp only [Option.some.injEq] at h
      subst h
      apply hdpmap port rfl
      omega
    · split at h
      · split at h
        · exact absurd h (by simp)
        · rename_i hidx
          simp only [Option.some.injEq] at h
          subst h
          rcases bond_choose_iface_range 4 false port with hr | hr
          · omega
          · apply hdpmap _ h5
            have hlen : (bond_choose_iface 4 false port).2.ifaces.length
                = port.ifaces.length := by
              have := congrArg List.length h5
              simpa using this
            rw [hlen]
            omega
      · rename_i hvalid
        simp only [Option.some.injEq] at h
        subst h
        apply hdpmap port rfl
        simp only [Bool.or_eq_true, decide_eq_true_eq, not_or] at hvalid
        obtain ⟨⟨hv1, hv2⟩, _hv3⟩ := hvalid
        omega

theorem set_dst_dp_mem (flow : Flow) (inp outp : Port) (tags : Nat) (d : Dst)
    (h : (set_dst flow inp outp tags).1 = some d) : d.dp_ifidx ∈ portDpSet outp := by
  simp only [set_dst] at h
  cases hr : (choose_output_iface outp flow.dl_src tags).1 with
  | none => rw [hr] at h; simp at h
  | some dp =>
    rw [hr] at h
    simp only [Option.some.injEq] at h
    have hmem := choose_output_dp_mem outp flow.dl_src tags dp hr
    rw [← h]
    exact hmem

theorem shape_imop {p q : Port} (h : p.shape = q.shape) :
    p.is_mirror_output_port = q.is_mirror_output_port := by
  have := congrArg PortShape.is_mirror_output_port h
  simpa [Port.shape] using this

theorem shape_dst_mirrors {p q : Port} (h : p.shape = q.shape) :
    p.dst_mirrors = q.dst_mirrors := by
  have := congrArg PortShape.dst_mirrors h
  simpa [Port.shape] using this

theorem shape_dpset {p q : Port} (h : p.shape = q.shape) :
    portDpSet p = portDpSet q := by
  have hdps := congrArg PortShape.dps h
  simp only [Port.shape] at hdps
  have hcomp : ∀ (r : Port), portDpSet r = (r.ifaces.map Iface.dp_ifidx).map u16ofInt := by
    intro r
    simp [portDpSet, List.map_map]
  rw [hcomp p, hcomp q, hdps]

theorem map_shape_getD {ports ports0 : List Port}
    (h : ports.map Port.shape = ports0.map Port.shape) (i : Nat) :
    (ports.getD i defaultPort).shape = (ports0.getD i defaultPort).shape := by
  have h1 := getD_map Port.shape ports i defaultPort
  have h2 := getD_map Port.shape ports0 i defaultPort
  rw [← h1, ← h2, h]

/-- Invariant carried through the flood loop: port shapes are untouched,
every committed destination maps into a non-mirror-output port of the
original bridge, and (when no port is an egress-mirror selector) the mirror
workset stays empty. -/
def FloodInv (ports0 : List Port) (acc : List Dst × Nat × List Port × Nat) : Prop :=
  acc.2.2.1.map Port.shape = ports0.map Port.shape ∧
  (∀ d ∈ acc.1, ∃ p ∈ ports0,
    p.is_mirror_output_port = false ∧ d.dp_ifidx ∈ portDpSet p) ∧
  ((∀ p ∈ ports0, p.dst_mirrors = 0) → acc.2.2.2 = 0)

theorem compose_flood_step_inv (flow : Flow) (vlan in_idx : Nat)
    (ports0 : List Port) (acc : List Dst × Nat × List Port × Nat) (i : Nat)
    (hinv : FloodInv ports0 acc) :
    FloodInv ports0 (compose_flood_step flow vlan in_idx acc i) := by
  obtain ⟨hmap, hdst, hmir⟩ := hinv
  simp only [compose_flood_step]
  split
  · rename_i hguard
    have hs := shape_set_dst flow (acc.2.2.1.getD in_idx defaultPort)
      (acc.2.2.1.getD i defaultPort) acc.2.1
    have hmap1 : (listModify acc.2.2.1 i (fun _ =>
        (set_dst flow (acc.2.2.1.getD in_idx defaultPort)
          (acc.2.2.1.getD i defaultPort) acc.2.1).2.2)).map Port.shape
        = ports0.map Port.shape := by
      rw [listModify_map_pointwise _ _ _ _ defaultPort (fun _ => hs), hmap]
    cases hr : (set_dst flow (acc.2.2.1.getD in_idx defaultPort)
        (acc.2.2.1.getD i defaultPort) acc.2.1).1 with
    | none =>
      exact ⟨hmap1, hdst, hmir⟩
    | some d =>
      have hlt : i < acc.2.2.1.length := by
        by_contra hge
        push_neg at hge
        rw [List.getD_eq_default _ _ hge] at hr
        have : (set_dst flow (acc.2.2.1.getD in_idx defaultPort) defaultPort
            acc.2.1).1 = none := rfl
        rw [this] at hr
        exact Option.noConfusion hr
      have hlen0 : acc.2.2.1.length = ports0.length := by
        have := congrArg List.length hmap
        simpa using this
      have hshape_i := map_shape_getD hmap i
      refine ⟨hmap1, ?_, ?_⟩
      · intro d0 hd0
        rcases List.mem_append.mp hd0 with hold | hnew
        · exact hdst d0 hold
        · have hdeq : d0 = d := by simpa using hnew
          subst hdeq
          refine ⟨ports0.getD i defaultPort, getD_mem _ _ _ (by omega), ?_, ?_⟩
          · rcases hguard with ⟨-, -, hmo⟩
            rw [← shape_imop hshape_i]
            simpa using hmo
          · rw [← shape_dpset hshape_i]
            exact set_dst_dp_mem _ _ _ _ _ hr
      · intro hz
        have hm0 := hmir hz
        have hdm : ((set_dst flow (acc.2.2.1.getD in_idx defaultPort)
            (acc.2.2.1.getD i defaultPort) acc.2.1).2.2).dst_mirrors = 0 := by
          rw [shape_dst_mirrors hs, shape_dst_mirrors hshape_i]
          exact hz _ (getD_mem _ _ _ (by omega))
        rw [hm0, hdm]
        simp
  · exact ⟨hmap, hdst, hmir⟩

theorem compose_flood_fold_inv (flow : Flow) (vlan in_idx : Nat)
    (ports0 : List Port) :
    ∀ (idxs : List Nat) (acc : List Dst × Nat × List Port × Nat),
      FloodInv ports0 acc →
      FloodInv ports0 (idxs.foldl (compose_flood_step flow vlan in_idx) acc) := by
  intro idxs
  induction idxs with
  | nil => intro acc h; exact h
  | cons i is ih =>
    intro acc h
    simp only [List.foldl_cons]
    exact ih _ (compose_flood_step_inv flow vlan in_idx ports0 acc i h)

theorem mem_partition_dsts (l : List Dst) (v : Nat) (d : Dst)
    (h : d ∈ partition_dsts l v) : d ∈ l := by
  rcases List.mem_append.mp h with h1 | h1 <;> exact (List.mem_filter.mp h1).1

/-- Claim C3 counterexample: `fxBrPoisoned` has no mirrors at all and no
mirror masks set, its port 1 is flagged `is_mirror_output_port`, and the
learning table maps the destination MAC to port 1 — `process_flow` then
emits `OUTPUT(2)`, port 1's datapath port, as the normal egress for
non-mirror traffic.  The concrete-egress path of `compose_dsts` never
checks `is_mirror_output_port`, so the claim is false for every bridge state
whose learning table resolves to such a port (the in-pipeline learning
cannot create such an entry, since frames from the port are dropped before
learning, but `bridge_account_flow_ofhook_cb` learns without that check and
reconfiguration can mark a port as mirror output after MACs were learned on
it). -/
theorem C3_mirror_isolation_counterexample :
    (fxBrPoisoned.ports.getD 1 defaultPort).is_mirror_output_port = true
    ∧ (∀ p ∈ fxBrPoisoned.ports, p.src_mirrors = 0 ∧ p.dst_mirrors = 0)
    ∧ fxBrPoisoned.mirrors = []
    ∧ OdpAction.output 2 ∈ (process_flow fxBrPoisoned fxFlow true 0 0).2.1
    ∧ (fxBrPoisoned.ports.getD 1 defaultPort).ifaces.map
        (fun i => u16ofInt i.dp_ifidx) = [2] := by
  decide

set_option maxHeartbeats 2000000 in
/-- Claim C3 as amended: (1) the flood path composes destinations only from
non-mirror-output ports — for a flood with no mirror selected (ingress
`src_mirrors` empty and no port selecting egress mirrors), every destination
maps into a port of the bridge that is not a mirror output port; (2) a frame
arriving on a mirror-output port is dropped: when no mirror selects the
ingress port's traffic the composed action list is empty.  The concrete
MAC-learned egress is NOT filtered, so a mirror-output port can appear there
whenever the learning table resolves to it (see the counterexample). -/
theorem C3_mirror_isolation_amended :
    (∀ (br : Bridge) (flow : Flow) (vlan in_idx tags nf0 : Nat),
      (br.ports.getD in_idx defaultPort).src_mirrors = 0 →
      (∀ p ∈ br.ports, p.dst_mirrors = 0) →
      ∀ d ∈ (compose_dsts br flow vlan in_idx OutSpec.flood tags nf0).1,
        ∃ p ∈ br.ports, p.is_mirror_output_port = false ∧
          d.dp_ifidx ∈ portDpSet p) ∧
    (∀ (br : Bridge) (flow : Flow) (hp : Bool) (tags nf0 pi ii : Nat),
      iface_from_dp_ifidx br.ports flow.in_port = some (pi, ii) →
      (br.ports.getD pi defaultPort).is_mirror_output_port = true →
      (br.ports.getD pi defaultPort).src_mirrors = 0 →
      (process_flow br flow hp tags nf0).2.1 = []) := by
  constructor
  · intro br flow vlan in_idx tags nf0 hsm hdst d hd
    have hinv := compose_flood_fold_inv flow vlan in_idx br.ports
      (List.range br.ports.length) ([], tags, br.ports, 0)
      ⟨rfl, by simp, fun _ => rfl⟩
    obtain ⟨hmapF, hdstF, hmirF⟩ := hinv
    have hz : (compose_flood flow vlan in_idx br.ports tags).2.2.2 = 0 :=
      hmirF hdst
    simp only [compose_dsts, hsm, hz, Nat.zero_or] at hd
    rw [compose_mirrors_zero] at hd
    exact hdstF d (mem_partition_dsts _ _ _ hd)
  · intro br flow hp tags nf0 pi ii hif hmo hsm
    simp only [process_flow, hif]
    repeat' split
    all_goals first
      | exact compose_actions_null _ _ _ _ _ _ hsm
      | rfl
      | exact absurd hmo (by assumption)

/-- Bridge for the C1 witness: the hairpin scenario of the counterexample
but with the mirror removed and the learning table resolving to the ingress
port. -/
def fxBrHairpinNoMirror : Bridge :=
  { fxBrHairpin with
    mirrors := [], ports := [{ fxP0 with src_mirrors := 0 }, fxP1] }

/-- Witness for the amended C1: with no mirror on the ingress port the
hairpin flow composes no actions at all. -/
theorem C1_hairpin_amended_witness :
    (process_flow fxBrHairpinNoMirror fxFlow true 0 0).2.1 = [] :=
  C1_hairpin_amended fxBrHairpinNoMirror fxFlow true 0 0 0 0 _
    (by decide) (by decide) rfl (by decide) (by decide)

/-- Witness for the amended C3: on `fxBrPoisoned` every flood destination
lies on a non-mirror-output port, and a frame entering at the mirror output
port (datapath port 2) composes no actions. -/
theorem C3_mirror_isolation_amended_witness :
    (∀ d ∈ (compose_dsts fxBrPoisoned fxFlow 10 0 OutSpec.flood 0 0).1,
      ∃ p ∈ fxBrPoisoned.ports, p.is_mirror_output_port = false ∧
        d.dp_ifidx ∈ portDpSet p) ∧
    (process_flow fxBrPoisoned { fxFlow with in_port := 2 } true 0 0).2.1 = [] :=
  ⟨C3_mirror_isolation_amended.1 fxBrPoisoned fxFlow 10 0 0 0 (by decide) (by decide),
   C3_mirror_isolation_amended.2 fxBrPoisoned { fxFlow with in_port := 2 } true 0 0 1 0
     (by decide) (by decide) (by decide)⟩

/-! ### Claim C4 -/

/-- No `(vlan, dp_ifidx)` pair occurs twice in a destination list. -/
@[reducible] def NoDupDst (dsts : List Dst) : Prop :=
  List.Pairwise (fun a b => ¬ (a.vlan = b.vlan ∧ a.dp_ifidx = b.dp_ifidx)) dsts

/-- Appending a destination that failed the `dst_is_duplicate` test keeps the
list duplicate-free. -/
theorem NoDupDst_append (dsts : List Dst) (d : Dst) (h : NoDupDst dsts)
    (hg : ¬ dst_is_duplicate dsts d = true) : NoDupDst (dsts ++ [d]) := by
  apply List.pairwise_append.mpr
  refine ⟨h, List.pairwise_singleton _ _, ?_⟩
  intro a ha b hb
  have hbd : b = d := by simpa using hb
  subst hbd
  intro hcon
  apply hg
  simp only [dst_is_duplicate, List.any_eq_true]
  exact ⟨a, ha, by simp [hcon.1, hcon.2]⟩

/-- Every append of the RSPAN inner loop is guarded by `dst_is_duplicate`. -/
theorem compose_rspan_step_nodup (flow : Flow) (ov : Int) (in_idx : Nat)
    (acc : List Dst × Nat × List Port) (i : Nat) (h : NoDupDst acc.1) :
    NoDupDst (compose_rspan_step flow ov in_idx acc i).1 := by
  simp only [compose_rspan_step]
  split
  · cases hr : (set_dst flow (acc.2.2.getD in_idx defaultPort)
        (acc.2.2.getD i defaultPort) acc.2.1).1 with
    | none => exact h
    | some d0 =>
      dsimp only
      split_ifs <;>
        first
          | exact h
          | exact NoDupDst_append _ _ h (by assumption)
  · exact h

theorem rspan_fold_nodup (flow : Flow) (ov : Int) (in_idx : Nat) :
    ∀ (idxs : List Nat) (acc : List Dst × Nat × List Port), NoDupDst acc.1 →
      NoDupDst ((idxs.foldl (compose_rspan_step flow ov in_idx) acc)).1 := by
  intro idxs
  induction idxs with
  | nil => intro acc h; exact h
  | cons i is ih =>
    intro acc h
    simp only [List.foldl_cons]
    exact ih _ (compose_rspan_step_nodup flow ov in_idx acc i h)

/-- The mirror loop never introduces a duplicate destination: both the SPAN
append and the RSPAN appends are guarded by `dst_is_duplicate`. -/
theorem compose_mirrors_nodup (mirrorsArr : List (Option Mirror)) (flow : Flow)
    (vlan in_idx : Nat) :
    ∀ (fuel mask : Nat) (acc : List Dst × Nat × List Port),
      NoDupDst acc.1 →
      NoDupDst (compose_mirrors mirrorsArr flow vlan in_idx fuel mask acc).1 := by
  intro fuel
  induction fuel with
  | zero => intro mask acc h; exact h
  | succ n ih =>
    intro mask acc h
    simp only [compose_mirrors]
    split
    · exact h
    · cases hm : mirrorsArr.getD (mirror_mask_ffs mask - 1) none with
      | none => exact ih _ _ h
      | some m =>
        dsimp only
        split
        · cases ho : m.out_port with
          | some opidx =>
            apply ih
            cases hr : (set_dst flow (acc.2.2.getD in_idx defaultPort)
                (acc.2.2.getD opidx defaultPort) acc.2.1).1 with
            | none => exact h
            | some d =>
              dsimp only
              split
              · exact h
              · rename_i hdup
                exact NoDupDst_append _ _ h hdup
          | none =>
            apply ih
            exact rspan_fold_nodup flow m.out_vlan in_idx _ _ h
        · exact ih _ _ h

/-- Moving the current-VLAN destinations to the front keeps the list
duplicate-free (the two filters cannot collide: their VLANs differ). -/
theorem NoDupDst_partition (l : List Dst) (v : Nat) (h : NoDupDst l) :
    NoDupDst (partition_dsts l v) := by
  apply List.pairwise_append.mpr
  refine ⟨List.Pairwise.sublist (List.filter_sublist _) h,
    List.Pairwise.sublist (List.filter_sublist _) h, ?_⟩
  intro a ha b hb
  have hav := (List.mem_filter.mp ha).2
  have hbv := (List.mem_filter.mp hb).2
  simp only [decide_eq_true_eq] at hav hbv
  intro hcon
  exact hbv (by rw [← hcon.1]; exact hav)

/-- Index-level form of the pairwise datapath-port disjointness of a
bridge's ports. -/
theorem pairwise_disj_getD (ports : List Port)
    (h : List.Pairwise (fun p q => ∀ x ∈ portDpSet p, x ∉ portDpSet q) ports) :
    ∀ i j, i < ports.length → j < ports.length → i ≠ j →
      ∀ x ∈ portDpSet (ports.getD i defaultPort),
        x ∉ portDpSet (ports.getD j defaultPort) := by
  have hp := List.pairwise_iff_getElem.mp h
  intro i j hi hj hne x hxi hxj
  have hgi : ports.getD i defaultPort = ports[i] := by
    rw [getD_eq_get?, List.get?_eq_getElem?, List.getElem?_eq_getElem hi,
      Option.getD_some]
  have hgj : ports.getD j defaultPort = ports[j] := by
    rw [getD_eq_get?, List.get?_eq_getElem?, List.getElem?_eq_getElem hj,
      Option.getD_some]
  rw [hgi] at hxi
  rw [hgj] at hxj
  rcases Nat.lt_or_ge i j with hij | hij
  · exact hp i j hi hj hij x hxi hxj
  · have hji : j < i := Nat.lt_of_le_of_ne hij (Ne.symm hne)
    exact hp j i hj hi hji x hxj hxi

/-- Invariant of the flood loop for non-duplication: port shapes untouched,
the committed destinations are pairwise distinct, and none of them uses a
datapath port belonging to a port whose index is still to be processed. -/
def FloodNoDup (ports0 : List Port) (idxs : List Nat)
    (acc : List Dst × Nat × List Port × Nat) : Prop :=
  acc.2.2.1.map Port.shape = ports0.map Port.shape ∧
  NoDupDst acc.1 ∧
  (∀ d ∈ acc.1, ∀ j ∈ idxs, d.dp_ifidx ∉ portDpSet (ports0.getD j defaultPort))

theorem compose_flood_step_nodup (flow : Flow) (vlan in_idx : Nat)
    (ports0 : List Port)
    (hdisj : ∀ i j, i < ports0.length → j < ports0.length → i ≠ j →
      ∀ x ∈ portDpSet (ports0.getD i defaultPort),
        x ∉ portDpSet (ports0.getD j defaultPort))
    (acc : List Dst × Nat × List Port × Nat) (i : Nat) (is : List Nat)
    (hi : i < ports0.length) (hnotin : i ∉ is)
    (hjs : ∀ j ∈ is, j < ports0.length)
    (hinv : FloodNoDup ports0 (i :: is) acc) :
    FloodNoDup ports0 is (compose_flood_step flow vlan in_idx acc i) := by
  obtain ⟨hmap, hnd, hfree⟩ := hinv
  simp only [compose_flood_step]
  split
  · have hs := shape_set_dst flow (acc.2.2.1.getD in_idx defaultPort)
      (acc.2.2.1.getD i defaultPort) acc.2.1
    have hmap1 : (listModify acc.2.2.1 i (fun _ =>
        (set_dst flow (acc.2.2.1.getD in_idx defaultPort)
          (acc.2.2.1.getD i defaultPort) acc.2.1).2.2)).map Port.shape
        = ports0.map Port.shape := by
      rw [listModify_map_pointwise _ _ _ _ defaultPort (fun _ => hs), hmap]
    cases hr : (set_dst flow (acc.2.2.1.getD in_idx defaultPort)
        (acc.2.2.1.getD i defaultPort) acc.2.1).1 with
    | none =>
      exact ⟨hmap1, hnd, fun d hd j hj => hfree d hd j (List.mem_cons_of_mem _ hj)⟩
    | some d =>
      have hshape_i := map_shape_getD hmap i
      have hdp : d.dp_ifidx ∈ portDpSet (ports0.getD i defaultPort) := by
        rw [← shape_dpset hshape_i]
        exact set_dst_dp_mem _ _ _ _ _ hr
      refine ⟨hmap1, ?_, ?_⟩
      · apply List.pairwise_append.mpr
        refine ⟨hnd, List.pairwise_singleton _ _, ?_⟩
        intro a ha b hb
        have hbd : b = d := by simpa using hb
        subst hbd
        intro hcon
        exact hfree a ha i (List.mem_cons_self _ _) (by rw [hcon.2]; exact hdp)
      · intro d0 hd0 j hj
        rcases List.mem_append.mp hd0 with hold | hnew
        · exact hfree d0 hold j (List.mem_cons_of_mem _ hj)
        · have hd0d : d0 = d := by simpa using hnew
          subst hd0d
          exact hdisj i j hi (hjs j hj) (fun he => hnotin (he ▸ hj)) _ hdp
  · exact ⟨hmap, hnd, fun d hd j hj => hfree d hd j (List.mem_cons_of_mem _ hj)⟩

theorem compose_flood_fold_nodup (flow : Flow) (vlan in_idx : Nat)
    (ports0 : List Port)
    (hdisj : ∀ i j, i < ports0.length → j < ports0.length → i ≠ j →
      ∀ x ∈ portDpSet (ports0.getD i defaultPort),
        x ∉ portDpSet (ports0.getD j defaultPort)) :
    ∀ (idxs : List Nat) (acc : List Dst × Nat × List Port × Nat),
      idxs.Nodup → (∀ j ∈ idxs, j < ports0.length) →
      FloodNoDup ports0 idxs acc →
      FloodNoDup ports0 []
        (idxs.foldl (compose_flood_step flow vlan in_idx) acc) := by
  intro idxs
  induction idxs with
  | nil => intro acc _ _ h; exact h
  | cons i is ih =>
    intro acc hnd hlt hinv
    simp only [List.foldl_cons]
    apply ih _ (List.Nodup.of_cons hnd)
      (fun j hj => hlt j (List.mem_cons_of_mem _ hj))
    exact compose_flood_step_nodup flow vlan in_idx ports0 hdisj acc i is
      (hlt i (List.mem_cons_self _ _)) ((List.nodup_cons.mp hnd).1)
      (fun j hj => hlt j (List.mem_cons_of_mem _ hj)) hinv

/-- The flood loop emits pairwise-distinct destinations: at most one per
port, drawn from pairwise-disjoint datapath port sets. -/
theorem compose_flood_nodup (flow : Flow) (vlan in_idx : Nat)
    (ports0 : List Port) (tags : Nat)
    (hdisj : List.Pairwise (fun p q => ∀ x ∈ portDpSet p, x ∉ portDpSet q)
      ports0) :
    NoDupDst (compose_flood flow vlan in_idx ports0 tags).1 := by
  have h := compose_flood_fold_nodup flow vlan in_idx ports0
    (pairwise_disj_getD ports0 hdisj) (List.range ports0.length)
    ([], tags, ports0, 0) (List.nodup_range _)
    (fun j hj => List.mem_range.mp hj)
    ⟨rfl, List.Pairwise.nil, by intro d hd j hj; simp at hd⟩
  exact h.2.1

/-- Claim C4: for every bridge whose ports have pairwise-disjoint datapath
port sets (each datapath port belongs to one interface of one port, the
datapath's own invariant), every flow, effective VLAN, ingress index and
egress choice, the destination list of `compose_dsts` contains no
`(vlan, dp_ifidx)` pair twice: the flood loop takes at most one destination
per port, the SPAN and RSPAN mirror appends are all guarded by
`dst_is_duplicate`, and the final VLAN partition only permutes the list. -/
theorem C4_no_duplicate_dsts (br : Bridge) (flow : Flow)
    (vlan in_idx tags nf0 : Nat) (out_spec : OutSpec)
    (hdisj : List.Pairwise (fun p q => ∀ x ∈ portDpSet p, x ∉ portDpSet q)
      br.ports) :
    NoDupDst (compose_dsts br flow vlan in_idx out_spec tags nf0).1 := by
  cases out_spec with
  | null =>
    simp only [compose_dsts]
    exact NoDupDst_partition _ _
      (compose_mirrors_nodup br.mirrors flow vlan in_idx 32 _ _
        List.Pairwise.nil)
  | flood =>
    simp only [compose_dsts]
    exact NoDupDst_partition _ _
      (compose_mirrors_nodup br.mirrors flow vlan in_idx 32 _ _
        (compose_flood_nodup flow vlan in_idx br.ports tags hdisj))
  | port oidx =>
    simp only [compose_dsts]
    cases hr : (set_dst flow (br.ports.getD in_idx defaultPort)
        (br.ports.getD oidx defaultPort) tags).1 with
    | none =>
      exact NoDupDst_partition _ _
        (compose_mirrors_nodup br.mirrors flow vlan in_idx 32 _ _
          List.Pairwise.nil)
    | some d =>
      exact NoDupDst_partition _ _
        (compose_mirrors_nodup br.mirrors flow vlan in_idx 32 _ _
          (List.pairwise_singleton _ _))

/-- Witness for C4: the hairpin fixture bridge (two ports on datapath ports
1 and 2, one SPAN mirror) flooded with the fixture flow. -/
theorem C4_no_duplicate_dsts_witness :
    List.Pairwise (fun p q => ∀ x ∈ portDpSet p, x ∉ portDpSet q)
      fxBrHairpin.ports
    ∧ NoDupDst (compose_dsts fxBrHairpin fxFlow 10 0 OutSpec.flood 0 0).1 :=
  ⟨by decide, C4_no_duplicate_dsts fxBrHairpin fxFlow 10 0 0 0 OutSpec.flood
    (by decide)⟩

/-! ### Claim C10 -/

/-- The observation of a port that `bridge_account_flow_ofhook_cb` must
leave unchanged: every field as is, with the `tx_bytes` counters of the
bond hash table zeroed out.  Two port lists with equal `portFrame` images
agree on everything except possibly those counters. -/
def portFrame (p : Port) : Port :=
  { p with bond_hash := p.bond_hash.map (fun e => { e with tx_bytes := 0 }) }

/-- The `tx_bytes` counter of bond-hash entry `k` of port `pi`. -/
def entryTx (ports : List Port) (pi k : Nat) : Nat :=
  ((ports.getD pi defaultPort).bond_hash.getD k defBE).tx_bytes

/-- Whether one datapath action makes `bridge_account_flow_ofhook_cb` credit
port `pi`: an `ODPAT_OUTPUT` whose datapath port resolves to `pi` and whose
port is bonded (`n_ifaces >= 2`). -/
def isCredit (ports : List Port) (pi : Nat) : OdpAction → Bool
  | OdpAction.output p =>
    decide (port_from_dp_ifidx ports p = some pi)
      && decide (2 ≤ (ports.getD pi defaultPort).ifaces.length)
  | _ => false

theorem iface_from_dp_ifidx_lt (ports : List Port) (dp : Nat) :
    ∀ r, iface_from_dp_ifidx ports dp = some r → r.1 < ports.length := by
  induction ports with
  | nil => intro r h; simp [iface_from_dp_ifidx] at h
  | cons p ps ih =>
    intro r h
    cases hf : p.ifaces.findIdx? (fun i => i.dp_ifidx = (dp : Int)) with
    | some ii =>
      simp only [iface_from_dp_ifidx, hf] at h
      have hr := Option.some_inj.mp h
      rw [← hr]
      simp
    | none =>
      simp only [iface_from_dp_ifidx, hf, Option.map_eq_some'] at h
      obtain ⟨r0, hr0, hmap⟩ := h
      have := ih r0 hr0
      rw [← hmap]
      simp only [List.length_cons]
      omega

theorem port_from_dp_ifidx_lt (ports : List Port) (dp pi : Nat)
    (h : port_from_dp_ifidx ports dp = some pi) : pi < ports.length := by
  simp only [port_from_dp_ifidx, Option.map_eq_some'] at h
  obtain ⟨r, hr, hpi⟩ := h
  exact hpi ▸ iface_from_dp_ifidx_lt ports dp r hr

theorem get?_eq_some_getD {a : Type} (l : List a) (i : Nat) (d : a)
    (h : i < l.length) : l.get? i = some (l.getD i d) := by
  rw [List.get?_eq_getElem?, List.getElem?_eq_getElem h, getD_eq_get?,
    List.get?_eq_getElem?, List.getElem?_eq_getElem h, Option.getD_some]

theorem listModify_getD {a : Type} (l : List a) (i : Nat) (f : a → a) (k : Nat)
    (d : a) :
    (listModify l i f).getD k d
      = if k = i then ((l.get? k).map f).getD d else l.getD k d := by
  rw [getD_eq_get?, listModify_get?]
  split
  · rfl
  · rw [getD_eq_get?]

/-- Crediting a bond-hash entry does not change the `portFrame` view of the
port. -/
theorem portFrame_credit (q : Port) (h n_bytes : Nat) :
    portFrame
      { q with
        bond_hash := listModify q.bond_hash h
          (fun e => { e with tx_bytes := (e.tx_bytes + n_bytes) % 2 ^ 64 }) }
      = portFrame q := by
  have hm : (listModify q.bond_hash h
        (fun e => { e with tx_bytes := (e.tx_bytes + n_bytes) % 2 ^ 64 })).map
        (fun e => { e with tx_bytes := 0 })
      = q.bond_hash.map (fun e => { e with tx_bytes := 0 }) :=
    listModify_map_congr _ _ _ _ (fun e => rfl)
  simp only [portFrame, Port.mk.injEq, hm]

/-- One accounting step only touches `tx_bytes` counters. -/
theorem account_step_frame (flow : Flow) (n_bytes : Nat) (ports : List Port)
    (a : OdpAction) :
    (bridge_account_flow_step flow n_bytes ports a).map portFrame
      = ports.map portFrame := by
  cases a with
  | set_vlan_vid v => rfl
  | strip_vlan => rfl
  | output p =>
    simp only [bridge_account_flow_step]
    cases hpf : port_from_dp_ifidx ports p with
    | none => rfl
    | some opi =>
      dsimp only
      split
      · exact listModify_map_pointwise _ _ _ _ defaultPort
          (fun _ => portFrame_credit _ _ _)
      · rfl

theorem map_pf_iface_eq :
    ∀ (ports ports0 : List Port), ports.map portFrame = ports0.map portFrame →
      ∀ dp, iface_from_dp_ifidx ports dp = iface_from_dp_ifidx ports0 dp := by
  intro ports
  induction ports with
  | nil =>
    intro ports0 h dp
    cases ports0 with
    | nil => rfl
    | cons q qs => simp at h
  | cons p ps ih =>
    intro ports0 h dp
    cases ports0 with
    | nil => simp at h
    | cons q qs =>
      simp only [List.map_cons, List.cons.injEq] at h
      have hif0 := congrArg Port.ifaces h.1
      have hif : p.ifaces = q.ifaces := hif0
      simp only [iface_from_dp_ifidx, hif, ih qs h.2 dp]

theorem map_pf_port_from (ports ports0 : List Port)
    (h : ports.map portFrame = ports0.map portFrame) (dp : Nat) :
    port_from_dp_ifidx ports dp = port_from_dp_ifidx ports0 dp := by
  simp only [port_from_dp_ifidx, map_pf_iface_eq ports ports0 h dp]

theorem map_pf_getD (ports ports0 : List Port)
    (h : ports.map portFrame = ports0.map portFrame) (i : Nat) :
    portFrame (ports.getD i defaultPort) = portFrame (ports0.getD i defaultPort) := by
  have h1 := getD_map portFrame ports i defaultPort
  have h2 := getD_map portFrame ports0 i defaultPort
  rw [← h1, ← h2, h]

theorem map_pf_ifaces (ports ports0 : List Port)
    (h : ports.map portFrame = ports0.map portFrame) (i : Nat) :
    (ports.getD i defaultPort).ifaces = (ports0.getD i defaultPort).ifaces := by
  have h0 := congrArg Port.ifaces (map_pf_getD ports ports0 h i)
  exact h0

theorem map_pf_bond_len (ports ports0 : List Port)
    (h : ports.map portFrame = ports0.map portFrame) (i : Nat) :
    (ports.getD i defaultPort).bond_hash.length
      = (ports0.getD i defaultPort).bond_hash.length := by
  have hc := congrArg (fun p => p.bond_hash.length) (map_pf_getD ports ports0 h i)
  simpa [portFrame] using hc

/-- Equal `portFrame` images pin down every bond entry's `iface_idx` and
`iface_tag`. -/
theorem map_pf_entry (ports ports0 : List Port)
    (h : ports.map portFrame = ports0.map portFrame) (i k : Nat) :
    ((ports.getD i defaultPort).bond_hash.getD k defBE).iface_idx
        = ((ports0.getD i defaultPort).bond_hash.getD k defBE).iface_idx
    ∧ ((ports.getD i defaultPort).bond_hash.getD k defBE).iface_tag
        = ((ports0.getD i defaultPort).bond_hash.getD k defBE).iface_tag := by
  have hb : (ports.getD i defaultPort).bond_hash.map (fun e => { e with tx_bytes := 0 })
      = (ports0.getD i defaultPort).bond_hash.map (fun e => { e with tx_bytes := 0 }) :=
    congrArg Port.bond_hash (map_pf_getD ports ports0 h i)
  have h1 : ((ports.getD i defaultPort).bond_hash.map
        (fun e => { e with tx_bytes := 0 })).getD k defBE
      = (fun e => { e with tx_bytes := 0 })
          ((ports.getD i defaultPort).bond_hash.getD k defBE) :=
    getD_map _ _ k defBE
  have h2 : ((ports0.getD i defaultPort).bond_hash.map
        (fun e => { e with tx_bytes := 0 })).getD k defBE
      = (fun e => { e with tx_bytes := 0 })
          ((ports0.getD i defaultPort).bond_hash.getD k defBE) :=
    getD_map _ _ k defBE
  have hz : (fun e => { e with tx_bytes := 0 })
        ((ports.getD i defaultPort).bond_hash.getD k defBE)
      = (fun e => { e with tx_bytes := 0 })
          ((ports0.getD i defaultPort).bond_hash.getD k defBE) := by
    rw [← h1, ← h2, hb]
  have hz1 := congrArg BondEntry.iface_idx hz
  have hz2 := congrArg BondEntry.iface_tag hz
  exact ⟨hz1, hz2⟩

/-- An accounting step is the identity when no port is bonded. -/
theorem account_step_id (flow : Flow) (n_bytes : Nat) (ports : List Port)
    (h : ∀ p ∈ ports, p.ifaces.length < 2) (a : OdpAction) :
    bridge_account_flow_step flow n_bytes ports a = ports := by
  cases a with
  | set_vlan_vid v => rfl
  | strip_vlan => rfl
  | output p =>
    simp only [bridge_account_flow_step]
    cases hpf : port_from_dp_ifidx ports p with
    | none => rfl
    | some opi =>
      have hlt := port_from_dp_ifidx_lt ports p opi hpf
      have hsm := h _ (getD_mem ports opi defaultPort hlt)
      dsimp only
      split
      · rename_i hge; exact absurd hge (by omega)
      · rfl

theorem account_fold_id (flow : Flow) (n_bytes : Nat) (ports : List Port)
    (h : ∀ p ∈ ports, p.ifaces.length < 2) (acts : List OdpAction) :
    acts.foldl (bridge_account_flow_step flow n_bytes) ports = ports := by
  induction acts with
  | nil => rfl
  | cons a as ih =>
    rw [List.foldl_cons, account_step_id flow n_bytes ports h a, ih]

/-- The entry-level effect of one accounting step: the source-MAC entry of a
credited port gains `n_bytes` (mod 2^64), everything else is unchanged. -/
theorem account_step_entry (flow : Flow) (n_bytes : Nat) (ports0 ports : List Port)
    (hpf : ports.map portFrame = ports0.map portFrame) (a : OdpAction) (pi k : Nat)
    (hk : k ≠ bond_hash flow.dl_src
      ∨ bond_hash flow.dl_src < (ports0.getD pi defaultPort).bond_hash.length) :
    entryTx (bridge_account_flow_step flow n_bytes ports a) pi k
      = if k = bond_hash flow.dl_src ∧ isCredit ports0 pi a = true then
          (entryTx ports pi k + n_bytes) % 2 ^ 64
        else entryTx ports pi k := by
  cases a with
  | set_vlan_vid v => simp [isCredit, bridge_account_flow_step]
  | strip_vlan => simp [isCredit, bridge_account_flow_step]
  | output p =>
    have hstab := map_pf_port_from ports ports0 hpf p
    simp only [bridge_account_flow_step]
    cases hq : port_from_dp_ifidx ports p with
    | none =>
      have h0 : port_from_dp_ifidx ports0 p = none := by rw [← hstab, hq]
      simp [isCredit, h0]
    | some opi =>
      have h0 : port_from_dp_ifidx ports0 p = some opi := by rw [← hstab, hq]
      have hlt : opi < ports.length := port_from_dp_ifidx_lt ports p opi hq
      have hifeq := map_pf_ifaces ports ports0 hpf opi
      dsimp only
      by_cases hge : (ports.getD opi defaultPort).ifaces.length ≥ 2
      · rw [if_pos hge]
        by_cases hpe : pi = opi
        · rw [hpe] at hk ⊢
          have hct : isCredit ports0 opi (OdpAction.output p) = true := by
            simp only [isCredit, Bool.and_eq_true, decide_eq_true_eq]
            exact ⟨h0, by rw [← hifeq]; omega⟩
          have hoo : (opi = opi) ↔ True := eq_self_iff_true opi
          simp only [entryTx, listModify_getD, hoo, if_true,
            get?_eq_some_getD ports opi defaultPort hlt, Option.map_some',
            Option.getD_some]
          by_cases hkh : k = bond_hash flow.dl_src
          · rcases hk with hk | hlen0
            · exact absurd hkh hk
            have hlen : k < (ports.getD opi defaultPort).bond_hash.length := by
              rw [map_pf_bond_len ports ports0 hpf opi, hkh]; exact hlen0
            rw [if_pos (And.intro hkh hct)]
            simp only [listModify_getD, if_pos hkh,
              get?_eq_some_getD (ports.getD opi defaultPort).bond_hash k defBE hlen,
              Option.map_some', Option.getD_some]
          · rw [if_neg (show ¬ (k = bond_hash flow.dl_src
                ∧ isCredit ports0 opi (OdpAction.output p) = true) from
                fun hc => hkh hc.1)]
            simp only [listModify_getD, if_neg hkh]
        · have hcf : ¬ (k = bond_hash flow.dl_src
              ∧ isCredit ports0 pi (OdpAction.output p) = true) := by
            rintro ⟨-, hc⟩
            simp only [isCredit, h0, Bool.and_eq_true, decide_eq_true_eq] at hc
            exact hpe (Option.some_inj.mp hc.1).symm
          rw [if_neg hcf]
          simp only [entryTx, listModify_getD, if_neg hpe]
      · rw [if_neg hge]
        have hcf : ¬ (k = bond_hash flow.dl_src
            ∧ isCredit ports0 pi (OdpAction.output p) = true) := by
          rintro ⟨-, hc⟩
          simp only [isCredit, h0, Bool.and_eq_true, decide_eq_true_eq] at hc
          have hpe : opi = pi := Option.some_inj.mp hc.1
          rw [← hpe, ← hifeq] at hc
          omega
        rw [if_neg hcf]

/-- The fold over the action list: frame preservation, non-source entries
unchanged, and the source-MAC entry accumulating one `n_bytes` per crediting
action. -/
theorem account_fold (flow : Flow) (n_bytes : Nat) (ports0 : List Port) (pi : Nat) :
    ∀ (acts : List OdpAction) (ports : List Port),
      ports.map portFrame = ports0.map portFrame →
      ((acts.foldl (bridge_account_flow_step flow n_bytes) ports).map portFrame
          = ports0.map portFrame)
      ∧ (∀ k, k ≠ bond_hash flow.dl_src →
          entryTx (acts.foldl (bridge_account_flow_step flow n_bytes) ports) pi k
            = entryTx ports pi k)
      ∧ (bond_hash flow.dl_src < (ports0.getD pi defaultPort).bond_hash.length →
          entryTx ports pi (bond_hash flow.dl_src) < 2 ^ 64 →
          entryTx (acts.foldl (bridge_account_flow_step flow n_bytes) ports) pi
              (bond_hash flow.dl_src)
            = (entryTx ports pi (bond_hash flow.dl_src)
                + (acts.filter (isCredit ports0 pi)).length * n_bytes) % 2 ^ 64) := by
  intro acts
  induction acts with
  | nil =>
    intro ports h
    refine ⟨h, fun k hk => rfl, fun hlen hv => ?_⟩
    simp only [List.foldl_nil, List.filter_nil, List.length_nil, Nat.zero_mul,
      Nat.add_zero]
    omega
  | cons a as ih =>
    intro ports h
    have hsf : (bridge_account_flow_step flow n_bytes ports a).map portFrame
        = ports0.map portFrame := (account_step_frame flow n_bytes ports a).trans h
    obtain ⟨ih1, ih2, ih3⟩ := ih (bridge_account_flow_step flow n_bytes ports a) hsf
    refine ⟨ih1, ?_, ?_⟩
    · intro k hk
      rw [List.foldl_cons, ih2 k hk,
        account_step_entry flow n_bytes ports0 ports h a pi k (Or.inl hk),
        if_neg (show ¬ (k = bond_hash flow.dl_src ∧ isCredit ports0 pi a = true)
          from fun hc => hk hc.1)]
    · intro hlen hv
      have hstep := account_step_entry flow n_bytes ports0 ports h a pi
        (bond_hash flow.dl_src) (Or.inr hlen)
      rw [List.foldl_cons]
      by_cases hc : isCredit ports0 pi a = true
      · rw [if_pos (And.intro rfl hc)] at hstep
        have hv2 : entryTx (bridge_account_flow_step flow n_bytes ports a) pi
            (bond_hash flow.dl_src) < 2 ^ 64 := by
          rw [hstep]; exact Nat.mod_lt _ (by norm_num)
        rw [ih3 hlen hv2, hstep, List.filter_cons, if_pos hc, List.length_cons,
          Nat.mod_add_mod]
        congr 1
        ring
      · rw [if_neg (show ¬ (bond_hash flow.dl_src = bond_hash flow.dl_src
            ∧ isCredit ports0 pi a = true) from fun hcc => hc hcc.2)] at hstep
        have hv2 : entryTx (bridge_account_flow_step flow n_bytes ports a) pi
            (bond_hash flow.dl_src) < 2 ^ 64 := by
          rw [hstep]; exact hv
        rw [ih3 hlen hv2, hstep, List.filter_cons, if_neg hc]

/-- Claim C10 (implicit frame effect of `bridge_account_flow_ofhook_cb`):
(1) the per-port view with bond `tx_bytes` zeroed is preserved — no port or
interface field and no entry membership changes; (2) every bond entry's
`iface_idx` and `iface_tag` are unchanged; (3) with `has_bonded_ports`
false the ports (bond tables included) are untouched; (4) likewise when no
port has two interfaces; (5) entries at hash indices other than the source
MAC's are unchanged; (6) the source-MAC entry of each port gains exactly
`n_bytes` per `OUTPUT` action resolving to that port with `n_ifaces >= 2`
(u64 addition, so mod 2^64); (7) absent overflow the counter never
decreases. -/
theorem C10_account_frame_effect (br : Bridge) (flow : Flow)
    (actions : List OdpAction) (n_bytes : Nat) :
    ((bridge_account_flow_ofhook_cb br flow actions n_bytes).ports.map portFrame
        = br.ports.map portFrame)
    ∧ (∀ pi k,
        ((((bridge_account_flow_ofhook_cb br flow actions n_bytes).ports.getD pi
              defaultPort).bond_hash.getD k defBE).iface_idx
            = (((br.ports.getD pi defaultPort).bond_hash.getD k defBE).iface_idx))
        ∧ ((((bridge_account_flow_ofhook_cb br flow actions n_bytes).ports.getD pi
              defaultPort).bond_hash.getD k defBE).iface_tag
            = (((br.ports.getD pi defaultPort).bond_hash.getD k defBE).iface_tag)))
    ∧ (br.has_bonded_ports = false →
        (bridge_account_flow_ofhook_cb br flow actions n_bytes).ports = br.ports)
    ∧ ((∀ p ∈ br.ports, p.ifaces.length < 2) →
        (bridge_account_flow_ofhook_cb br flow actions n_bytes).ports = br.ports)
    ∧ (∀ pi k, k ≠ bond_hash flow.dl_src →
        entryTx (bridge_account_flow_ofhook_cb br flow actions n_bytes).ports pi k
          = entryTx br.ports pi k)
    ∧ (∀ pi, br.has_bonded_ports = true →
        bond_hash flow.dl_src < (br.ports.getD pi defaultPort).bond_hash.length →
        entryTx br.ports pi (bond_hash flow.dl_src) < 2 ^ 64 →
        entryTx (bridge_account_flow_ofhook_cb br flow actions n_bytes).ports pi
            (bond_hash flow.dl_src)
          = (entryTx br.ports pi (bond_hash flow.dl_src)
              + (actions.filter (isCredit br.ports pi)).length * n_bytes) % 2 ^ 64)
    ∧ (∀ pi, br.has_bonded_ports = true →
        bond_hash flow.dl_src < (br.ports.getD pi defaultPort).bond_hash.length →
        entryTx br.ports pi (bond_hash flow.dl_src)
            + (actions.filter (isCredit br.ports pi)).length * n_bytes < 2 ^ 64 →
        entryTx br.ports pi (bond_hash flow.dl_src)
          ≤ entryTx (bridge_account_flow_ofhook_cb br flow actions n_bytes).ports pi
              (bond_hash flow.dl_src)) := by
  cases hb : br.has_bonded_ports with
  | false =>
    have hports : (bridge_account_flow_ofhook_cb br flow actions n_bytes).ports
        = br.ports := by
      simp [bridge_account_flow_ofhook_cb, hb]
    refine ⟨by rw [hports], fun pi k => by rw [hports]; exact ⟨rfl, rfl⟩,
      fun _ => hports, fun _ => hports, fun pi k _ => by rw [hports],
      fun pi hbt => Bool.noConfusion hbt,
      fun pi hbt => Bool.noConfusion hbt⟩
  | true =>
    have hports : (bridge_account_flow_ofhook_cb br flow actions n_bytes).ports
        = actions.foldl (bridge_account_flow_step flow n_bytes) br.ports := by
      simp [bridge_account_flow_ofhook_cb, hb]
    refine ⟨?_, ?_, ?_, ?_, ?_, ?_, ?_⟩
    · rw [hports]
      exact (account_fold flow n_bytes br.ports 0 actions br.ports rfl).1
    · intro pi k
      rw [hports]
      exact map_pf_entry _ br.ports
        (account_fold flow n_bytes br.ports 0 actions br.ports rfl).1 pi k
    · intro hflag
      exact Bool.noConfusion hflag
    · intro hall
      rw [hports, account_fold_id flow n_bytes br.ports hall actions]
    · intro pi k hk
      rw [hports]
      exact (account_fold flow n_bytes br.ports pi actions br.ports rfl).2.1 k hk
    · intro pi _ hlen hv
      rw [hports]
      exact (account_fold flow n_bytes br.ports pi actions br.ports rfl).2.2 hlen hv
    · intro pi _ hlen hnov
      have hv : entryTx br.ports pi (bond_hash flow.dl_src) < 2 ^ 64 :=
        Nat.lt_of_le_of_lt (Nat.le_add_right _ _) hnov
      rw [hports,
        (account_fold flow n_bytes br.ports pi actions br.ports rfl).2.2 hlen hv,
        Nat.mod_eq_of_lt hnov]
      exact Nat.le_add_right _ _

/-- Bonded port for the C10 witness: `fxBond` with a full 256-entry bond
hash table. -/
def fxBondAcct : Port :=
  { fxBond with bond_hash := List.replicate 256 defBE }

/-- Bridge owning `fxBondAcct`. -/
def fxBrAcct : Bridge :=
  { name := "b", ports := [fxBondAcct], mirrors := [], ml := [],
    has_bonded_ports := true, flush := false }

set_option maxRecDepth 4000 in
/-- Witness for C10 at concrete inputs: two `OUTPUT` actions onto the two
slaves of the bonded port both credit the source-MAC entry, other entries
and the zeroed-counter view stay fixed, and an unbonded bridge is left
untouched. -/
theorem C10_account_frame_effect_witness :
    ((bridge_account_flow_ofhook_cb fxBrAcct fxFlow
        [OdpAction.output 3, OdpAction.output 4] 500).ports.map portFrame
      = fxBrAcct.ports.map portFrame)
    ∧ ((∀ p ∈ fxBrPoisoned.ports, p.ifaces.length < 2)
      ∧ (bridge_account_flow_ofhook_cb fxBrPoisoned fxFlow
          [OdpAction.output 1] 500).ports = fxBrPoisoned.ports)
    ∧ ((0 : Nat) ≠ bond_hash fxFlow.dl_src
      ∧ entryTx (bridge_account_flow_ofhook_cb fxBrAcct fxFlow
          [OdpAction.output 3, OdpAction.output 4] 500).ports 0 0
        = entryTx fxBrAcct.ports 0 0)
    ∧ (bond_hash fxFlow.dl_src
        < (fxBrAcct.ports.getD 0 defaultPort).bond_hash.length
      ∧ entryTx fxBrAcct.ports 0 (bond_hash fxFlow.dl_src) < 2 ^ 64
      ∧ entryTx (bridge_account_flow_ofhook_cb fxBrAcct fxFlow
            [OdpAction.output 3, OdpAction.output 4] 500).ports 0
            (bond_hash fxFlow.dl_src)
          = (entryTx fxBrAcct.ports 0 (bond_hash fxFlow.dl_src)
              + ([OdpAction.output 3, OdpAction.output 4].filter
                  (isCredit fxBrAcct.ports 0)).length * 500) % 2 ^ 64) :=
  ⟨(C10_account_frame_effect fxBrAcct fxFlow
      [OdpAction.output 3, OdpAction.output 4] 500).1,
   ⟨by decide,
    (C10_account_frame_effect fxBrPoisoned fxFlow
      [OdpAction.output 1] 500).2.2.2.1 (by decide)⟩,
   ⟨by decide,
    (C10_account_frame_effect fxBrAcct fxFlow
      [OdpAction.output 3, OdpAction.output 4] 500).2.2.2.2.1 0 0 (by decide)⟩,
   ⟨by decide, by decide,
    (C10_account_frame_effect fxBrAcct fxFlow
      [OdpAction.output 3, OdpAction.output 4] 500).2.2.2.2.2.1 0 rfl
      (by decide) (by decide)⟩⟩

end OVS
